import Mathlib

/-
  Verification development for the Monkey-family interpreter
  (lexer → Pratt parser → tree-walking evaluator).

  The definitions below are a shallow embedding of the Rust sources:
    - src/lexer/token.rs, src/lexer/tokenizer.rs   (token model, lexer)
    - src/ast/*                                     (AST)
    - src/object/mod.rs, objects.rs, environment.rs (value model, scopes)
    - src/evaluator/eval.rs, helpers.rs, errors.rs, builtins.rs
    - src/parser/*                                  (Pratt parser)

  Modelling conventions:
    - Rust `Rc<RefCell<...>>` containers (arrays, hash maps, environments)
      have reference semantics; they are modelled by an explicit heap `St`
      addressed by `Nat` handles.
    - Rust `Option`-returning evaluator functions return
      `Option (Option AllObjects × St)`: the OUTER `Option` is recursion
      fuel (a model artifact, `none` = fuel exhausted), the INNER `Option`
      is the Rust `Option` channel, and the state is threaded explicitly.
    - `i64` arithmetic is modelled on unbounded `Int`; overflow and
      division by zero, which panic in the source, are outside the claims
      checked here.
    - Rust `std::collections::HashMap` contents are modelled as
      association lists whose keys are kept duplicate-free by
      insert-with-overwrite; list ORDER is a model artifact and no theorem
      below relies on it, while the key/value CONTENTS are faithful.
-/

set_option maxHeartbeats 1000000

-- ===================== Token model (src/lexer/token.rs) =====================

inductive TokenType where
  | Illegal
  | Eof
  | Ident
  | Int
  | String
  | Assign
  | Plus
  | Minus
  | Bang
  | Asterisk
  | Slash
  | Lt
  | Gt
  | Eq
  | NotEq
  | Comma
  | Semicolon
  | Lparen
  | Rparen
  | Lbrace
  | Rbrace
  | Lbracket
  | Rbracket
  | Colon
  | Function
  | Let
  | If
  | Else
  | While
  | Return
  | True
  | False
  | Null
deriving DecidableEq, Repr

structure Token where
  token_type : TokenType
  literal : String
deriving DecidableEq, Repr

-- Represents the UNICODE null character (token.rs: NULL_CHAR)
def NULL_CHAR : Char := Char.ofNat 0

-- token.rs: new_token (the Rust version takes any ToString; specialised to String here,
-- with a char variant for the call sites that pass a char)
def new_token (token_type : TokenType) (literal : String) : Token :=
  { token_type := token_type, literal := literal }

def new_token_ch (token_type : TokenType) (literal : Char) : Token :=
  { token_type := token_type, literal := String.mk [literal] }

/-- Modelled from the spec: src/lexer/keywords.rs is absent from the snapshot;
the keyword spellings are fixed by spec section 3 and by the lexer tests in
src/lexer/tokenizer.rs. -/
def look_up_identifier (ident : String) : TokenType :=
  if ident = "fn" then TokenType.Function
  else if ident = "let" then TokenType.Let
  else if ident = "if" then TokenType.If
  else if ident = "else" then TokenType.Else
  else if ident = "return" then TokenType.Return
  else if ident = "while" then TokenType.While
  else if ident = "true" then TokenType.True
  else if ident = "false" then TokenType.False
  else if ident = "null" then TokenType.Null
  else TokenType.Ident

def eof_token : Token := new_token_ch TokenType.Eof NULL_CHAR

-- ===================== AST (src/ast/expressions.rs, statements.rs) =====================

structure Identifier where
  token : Token
  value : String
deriving DecidableEq, Repr

/-
  The AST statement structs in the snapshot's src/ast/statements.rs are a stale
  revision; the live field shapes are pinned by their use sites in
  src/evaluator/eval.rs and src/parser/parse_statements.rs and by spec section 3:
  Let{token, name, value: Box<AllExpressions>},
  Return{token, return_value: Box<AllExpressions>},
  Expression{token, expression: Option<Box<AllExpressions>>},
  Block{token, statements}, While{token, condition, body}.
  HashLiteral.pairs is a std HashMap<AllExpressions, AllExpressions>
  (src/ast/expressions.rs), modelled as a duplicate-free association list.
-/

mutual

inductive AllExpressions where
  | Identifier (ident : Identifier)
  | IntegerLiteral (token : Token) (value : Int)
  | StringLiteral (token : Token)
  | PrefixExpression (token : Token) (operator : String) (right : Option AllExpressions)
  | InfixExpression (token : Token) (left : Option AllExpressions) (operator : String)
      (right : Option AllExpressions)
  | Boolean (token : Token) (value : Bool)
  | Assignment (token : Token) (ident : Identifier) (value : AllExpressions)
  | IfExpression (token : Token) (condition : AllExpressions) (consequence : BlockStatement)
      (alternative : Option BlockStatement)
  | FunctionLiteral (token : Token) (parameters : List Identifier) (body : BlockStatement)
  | CallExpression (token : Token) (function : AllExpressions)
      (arguments : List AllExpressions)
  | ArrayLiteral (token : Token) (elements : List AllExpressions)
  | IndexExpression (token : Token) (left : AllExpressions) (index : AllExpressions)
  | RangeExpression (token : Token) (left : AllExpressions) (left_index : AllExpressions)
      (right_index : AllExpressions)
  | HashLiteral (token : Token) (pairs : List (AllExpressions × AllExpressions))
  | NullLiteral

inductive AllStatements where
  | Let (token : Token) (name : Identifier) (value : AllExpressions)
  | Return (token : Token) (return_value : AllExpressions)
  | Expression (token : Token) (expression : Option AllExpressions)
  | Block (block : BlockStatement)
  | While (token : Token) (condition : AllExpressions) (body : BlockStatement)

inductive BlockStatement where
  | mk (token : Token) (statements : List AllStatements)

end

/-
  Structural equality test on the AST, mirroring the derived `PartialEq` of
  src/ast/expressions.rs.  One deliberate deviation: the source's
  `HashLiteral: PartialEq` compares Display strings of an unordered map
  (order-unstable); here hash-literal pairs compare as stored lists.  No
  claim below compares hash literals, so the deviation is never exercised.
-/

mutual

def beqExpr : AllExpressions → AllExpressions → Bool
  | .Identifier a, .Identifier b => a == b
  | .IntegerLiteral t1 v1, .IntegerLiteral t2 v2 => t1 == t2 && v1 == v2
  | .StringLiteral t1, .StringLiteral t2 => t1 == t2
  | .PrefixExpression t1 o1 r1, .PrefixExpression t2 o2 r2 =>
      t1 == t2 && o1 == o2 && beqOptExpr r1 r2
  | .InfixExpression t1 l1 o1 r1, .InfixExpression t2 l2 o2 r2 =>
      t1 == t2 && beqOptExpr l1 l2 && o1 == o2 && beqOptExpr r1 r2
  | .Boolean t1 v1, .Boolean t2 v2 => t1 == t2 && v1 == v2
  | .Assignment t1 i1 v1, .Assignment t2 i2 v2 => t1 == t2 && i1 == i2 && beqExpr v1 v2
  | .IfExpression t1 c1 q1 a1, .IfExpression t2 c2 q2 a2 =>
      t1 == t2 && beqExpr c1 c2 && beqBlock q1 q2 && beqOptBlock a1 a2
  | .FunctionLiteral t1 p1 b1, .FunctionLiteral t2 p2 b2 =>
      t1 == t2 && p1 == p2 && beqBlock b1 b2
  | .CallExpression t1 f1 a1, .CallExpression t2 f2 a2 =>
      t1 == t2 && beqExpr f1 f2 && beqExprList a1 a2
  | .ArrayLiteral t1 e1, .ArrayLiteral t2 e2 => t1 == t2 && beqExprList e1 e2
  | .IndexExpression t1 l1 i1, .IndexExpression t2 l2 i2 =>
      t1 == t2 && beqExpr l1 l2 && beqExpr i1 i2
  | .RangeExpression t1 l1 a1 b1, .RangeExpression t2 l2 a2 b2 =>
      t1 == t2 && beqExpr l1 l2 && beqExpr a1 a2 && beqExpr b1 b2
  | .HashLiteral t1 p1, .HashLiteral t2 p2 => t1 == t2 && beqPairList p1 p2
  | .NullLiteral, .NullLiteral => true
  | _, _ => false
termination_by structural x => x

def beqOptExpr : Option AllExpressions → Option AllExpressions → Bool
  | none, none => true
  | some a, some b => beqExpr a b
  | _, _ => false
termination_by structural x => x

def beqExprList : List AllExpressions → List AllExpressions → Bool
  | [], [] => true
  | a :: as, b :: bs => beqExpr a b && beqExprList as bs
  | _, _ => false
termination_by structural x => x

def beqPairList :
    List (AllExpressions × AllExpressions) → List (AllExpressions × AllExpressions) → Bool
  | [], [] => true
  | (k1, v1) :: r1, (k2, v2) :: r2 => beqExpr k1 k2 && beqExpr v1 v2 && beqPairList r1 r2
  | _, _ => false
termination_by structural x => x

def beqStmt : AllStatements → AllStatements → Bool
  | .Let t1 n1 v1, .Let t2 n2 v2 => t1 == t2 && n1 == n2 && beqExpr v1 v2
  | .Return t1 v1, .Return t2 v2 => t1 == t2 && beqExpr v1 v2
  | .Expression t1 e1, .Expression t2 e2 => t1 == t2 && beqOptExpr e1 e2
  | .Block b1, .Block b2 => beqBlock b1 b2
  | .While t1 c1 b1, .While t2 c2 b2 => t1 == t2 && beqExpr c1 c2 && beqBlock b1 b2
  | _, _ => false
termination_by structural x => x

def beqStmtList : List AllStatements → List AllStatements → Bool
  | [], [] => true
  | a :: as, b :: bs => beqStmt a b && beqStmtList as bs
  | _, _ => false
termination_by structural x => x

def beqBlock : BlockStatement → BlockStatement → Bool
  | .mk t1 s1, .mk t2 s2 => t1 == t2 && beqStmtList s1 s2
termination_by structural x => x

def beqOptBlock : Option BlockStatement → Option BlockStatement → Bool
  | none, none => true
  | some a, some b => beqBlock a b
  | _, _ => false
termination_by structural x => x

end

def BlockStatement.token : BlockStatement → Token
  | .mk t _ => t

def BlockStatement.statements : BlockStatement → List AllStatements
  | .mk _ s => s

-- src/ast/program.rs
structure Program where
  statements : List AllStatements

-- src/ast/mod.rs (live revision): the node wrapper fed to the evaluator
inductive AllNodes where
  | Program (p : Program)
  | Statements (s : AllStatements)
  | Expressions (e : AllExpressions)

-- ===================== Object model (src/object/mod.rs, objects.rs) =====================

inductive ObjectType where
  | Integer
  | String
  | Boolean
  | Null
  | Error
  | Return
  | Function
  | BuiltInFunction
  | Array
  | HashMap
deriving DecidableEq, Repr

inductive ParamsType where
  | Fixed (params : List String)
  | Variadic
deriving DecidableEq, Repr

/-
  AllObjects: `ArrayObj` and `HashMap` hold `Rc<RefCell<...>>` handles in the
  source; here they hold `Nat` handles into the heap `St` below.  `Function`
  holds the handle of its captured environment.  The `func` pointer of
  `BuiltinFunctionObj` is dropped: the builtin table is injective in
  `fn_name`, so dispatch is by name in `eval_builtin_function_calls`.
-/
inductive AllObjects where
  | Integer (value : Int)
  | StringObj (value : String)
  | Boolean (value : Bool)
  | Null
  | Error (message : String)
  | ReturnValue (inner : AllObjects)
  | Function (name : String) (parameters : List Identifier) (body : BlockStatement)
      (env : Nat)
  | BuiltinFunction (fn_name : String) (parameters : ParamsType)
  | ArrayObj (elements : Nat)
  | HashMap (map : Nat)

-- Display impl of ObjectType (src/object/mod.rs)
def objectTypeDisplay : ObjectType → String
  | .Integer => "INTEGER"
  | .String => "STRING"
  | .Boolean => "BOOLEAN"
  | .Null => "NULL"
  | .Error => "ERROR"
  | .Return => "RETURN"
  | .Function => "FUNCTION"
  | .BuiltInFunction => "BUILTIN_FUNCTION"
  | .Array => "ARRAY"
  | .HashMap => "HASH_MAP"

def AllObjects.object_type : AllObjects → ObjectType
  | .Integer _ => ObjectType.Integer
  | .StringObj _ => ObjectType.String
  | .Boolean _ => ObjectType.Boolean
  | .Null => ObjectType.Null
  | .Error _ => ObjectType.Error
  | .ReturnValue _ => ObjectType.Return
  | .Function _ _ _ _ => ObjectType.Function
  | .BuiltinFunction _ _ => ObjectType.Function
  | .ArrayObj _ => ObjectType.Array
  | .HashMap _ => ObjectType.HashMap

def AllObjects.new_error (message : String) : AllObjects :=
  AllObjects.Error message

def AllObjects.is_integer (o : AllObjects) : Bool := o.object_type = ObjectType.Integer
def AllObjects.is_boolean (o : AllObjects) : Bool := o.object_type = ObjectType.Boolean
def AllObjects.is_null (o : AllObjects) : Bool := o.object_type = ObjectType.Null
def AllObjects.is_string (o : AllObjects) : Bool := o.object_type = ObjectType.String
def AllObjects.is_error (o : AllObjects) : Bool := o.object_type = ObjectType.Error

-- ===================== Environment and heap (src/object/environment.rs) =====================

/-
  A Frame models one `Environment`: `store` models the contents of
  `RefCell<HashMap<String, AllObjects>>` as a key-duplicate-free association
  list, `outer` the optional parent handle.  `St` is the heap: `envs` holds
  every environment ever created (handles are list indices; Rust drops
  unreferenced ones, unobservable here), `arrays`/`hashes` hold the shared
  mutable containers, and `fn_counter` replaces the uuid generator used for
  Function identities (uniqueness per run is preserved).
-/

structure Frame where
  store : List (String × AllObjects)
  outer : Option Nat

structure St where
  envs : List Frame
  arrays : List (List AllObjects)
  hashes : List (List (AllObjects × AllObjects))
  fn_counter : Nat

-- Contents model of HashMap::insert: overwrite the existing key in place,
-- otherwise append.
def storeInsert (store : List (String × AllObjects)) (name : String) (value : AllObjects) :
    List (String × AllObjects) :=
  match store with
  | [] => [(name, value)]
  | (k, v) :: rest =>
      if k = name then (name, value) :: rest else (k, v) :: storeInsert rest name value

def storeGet (store : List (String × AllObjects)) (name : String) : Option AllObjects :=
  match store with
  | [] => none
  | (k, v) :: rest => if k = name then some v else storeGet rest name

def storeKeys (store : List (String × AllObjects)) : List String :=
  store.map Prod.fst

-- Byte-lexicographic order of Rust's `String: Ord`, modelled on the scalar
-- values of the characters (identical for the ASCII strings occurring here).
def chars_lt : List Char → List Char → Bool
  | [], [] => false
  | [], _ :: _ => true
  | _ :: _, [] => false
  | a :: as, b :: bs =>
      if a.toNat < b.toNat then true
      else if b.toNat < a.toNat then false
      else chars_lt as bs

def string_lt (a b : String) : Bool := chars_lt a.data b.data

def insertSorted (x : String) : List String → List String
  | [] => [x]
  | y :: ys => if string_lt y x then y :: insertSorted x ys else x :: y :: ys

-- Model of `Vec::sort` on strings.
def sortStrings : List String → List String
  | [] => []
  | x :: xs => insertSorted x (sortStrings xs)

def St.getFrame (st : St) (id : Nat) : Option Frame := st.envs.get? id

def St.setFrame (st : St) (id : Nat) (fr : Frame) : St :=
  { st with envs := st.envs.set id fr }

-- Environment::new
def Environment.new (st : St) : Nat × St :=
  (st.envs.length, { st with envs := st.envs ++ [{ store := [], outer := none }] })

-- Environment::new_enclosed_environment
def Environment.new_enclosed_environment (outer : Nat) (st : St) : Nat × St :=
  (st.envs.length, { st with envs := st.envs ++ [{ store := [], outer := some outer }] })

-- Environment::get, walking the outer chain.  The fuel bounds the chain
-- length (a model artifact; every chain built by the evaluator is finite
-- and shorter than the number of frames).
def envGetF (st : St) : Nat → Nat → String → Option AllObjects
  | 0, _, _ => none
  | fuel + 1, id, name =>
      match st.getFrame id with
      | none => none
      | some fr =>
          match storeGet fr.store name with
          | some v => some v
          | none =>
              match fr.outer with
              | some oid => envGetF st fuel oid name
              | none => none

def envGet (st : St) (id : Nat) (name : String) : Option AllObjects :=
  envGetF st (st.envs.length + 1) id name

-- Environment::set: inserts into this frame's store and returns the value.
def envSet (st : St) (id : Nat) (name : String) (value : AllObjects) : AllObjects × St :=
  match st.getFrame id with
  | none => (value, st)
  | some fr => (value, st.setFrame id { fr with store := storeInsert fr.store name value })

/-
  Environment::replace.  The source first inserts the value into the local
  store; if the key was already present it returns Some(value), otherwise it
  removes the freshly inserted pair again (net effect: the local store is
  unchanged) and recurses into the outer scope.  The insert-then-remove dance
  on a missing key is modelled directly as a membership test.
-/
def envReplaceF (st : St) : Nat → Nat → String → AllObjects → Option AllObjects × St
  | 0, _, _, _ => (none, st)
  | fuel + 1, id, name, value =>
      match st.getFrame id with
      | none => (none, st)
      | some fr =>
          match storeGet fr.store name with
          | some _ =>
              (some value, st.setFrame id { fr with store := storeInsert fr.store name value })
          | none =>
              match fr.outer with
              | some oid => envReplaceF st fuel oid name value
              | none => (none, st)

def envReplace (st : St) (id : Nat) (name : String) (value : AllObjects) :
    Option AllObjects × St :=
  envReplaceF st (st.envs.length + 1) id name value

-- Environment::all_vars: all keys of this frame's store, sorted.
def all_vars (st : St) (id : Nat) : List String :=
  match st.getFrame id with
  | none => []
  | some fr => sortStrings (storeKeys fr.store)

-- ===================== Heaps for shared mutable containers =====================

def St.getArray (st : St) (ref : Nat) : List AllObjects :=
  (st.arrays.get? ref).getD []

def St.setArray (st : St) (ref : Nat) (elems : List AllObjects) : St :=
  { st with arrays := st.arrays.set ref elems }

-- Allocating a fresh `Rc<RefCell<Vec<AllObjects>>>`
def St.pushArray (st : St) (elems : List AllObjects) : Nat × St :=
  (st.arrays.length, { st with arrays := st.arrays ++ [elems] })

def St.getHash (st : St) (ref : Nat) : List (AllObjects × AllObjects) :=
  (st.hashes.get? ref).getD []

def St.setHash (st : St) (ref : Nat) (pairs : List (AllObjects × AllObjects)) : St :=
  { st with hashes := st.hashes.set ref pairs }

def St.pushHash (st : St) (pairs : List (AllObjects × AllObjects)) : Nat × St :=
  (st.hashes.length, { st with hashes := st.hashes ++ [pairs] })

/-
  The `PartialEq` of AllObjects (src/object/mod.rs and objects.rs): derived
  (structural) on Integer/String/Boolean/Null/Error/ReturnValue; Function by
  `name` only; BuiltinFunction by name and parameter spec (the source also
  compares the fn pointer, which the name determines); Array elementwise
  through the shared handle.  The fuel bounds recursion through the heap (a
  cyclic array makes the source's comparison diverge; no claim exercises
  that).  HashMap equality compares Display strings of unordered maps in the
  source, which is order-unstable; it is modelled as elementwise comparison
  of the stored pair lists, and no claim below compares HashMap objects.
-/
def objEqF (st : St) : Nat → AllObjects → AllObjects → Bool
  | 0, _, _ => false
  | fuel + 1, a, b =>
      match a, b with
      | .Integer x, .Integer y => x == y
      | .StringObj x, .StringObj y => x == y
      | .Boolean x, .Boolean y => x == y
      | .Null, .Null => true
      | .Error x, .Error y => x == y
      | .ReturnValue x, .ReturnValue y => objEqF st fuel x y
      | .Function n1 _ _ _, .Function n2 _ _ _ => n1 == n2
      | .BuiltinFunction n1 p1, .BuiltinFunction n2 p2 => n1 == n2 && p1 == p2
      | .ArrayObj r1, .ArrayObj r2 =>
          let xs := st.getArray r1
          let ys := st.getArray r2
          xs.length == ys.length &&
            (List.zip xs ys).all (fun p => objEqF st fuel p.1 p.2)
      | .HashMap r1, .HashMap r2 =>
          let xs := st.getHash r1
          let ys := st.getHash r2
          xs.length == ys.length &&
            (List.zip xs ys).all
              (fun p => objEqF st fuel p.1.1 p.2.1 && objEqF st fuel p.1.2 p.2.2)
      | _, _ => false

-- HashMap::insert on the modelled contents: overwrites the value of an
-- equal key (keeping the old key object, as std does) and returns the
-- previous value, appends otherwise.
def hashInsert (st : St) (eqFuel : Nat) :
    List (AllObjects × AllObjects) → AllObjects → AllObjects →
    List (AllObjects × AllObjects) × Option AllObjects
  | [], key, value => ([(key, value)], none)
  | (k, v) :: rest, key, value =>
      if objEqF st eqFuel k key then ((k, value) :: rest, some v)
      else
        let (rest', old) := hashInsert st eqFuel rest key value
        ((k, v) :: rest', old)

-- HashMap::remove: returns the removed value, if any.
def hashRemove (st : St) (eqFuel : Nat) :
    List (AllObjects × AllObjects) → AllObjects →
    List (AllObjects × AllObjects) × Option AllObjects
  | [], _ => ([], none)
  | (k, v) :: rest, key =>
      if objEqF st eqFuel k key then (rest, some v)
      else
        let (rest', old) := hashRemove st eqFuel rest key
        ((k, v) :: rest', old)

-- HashMap::get
def hashGet (st : St) (eqFuel : Nat) :
    List (AllObjects × AllObjects) → AllObjects → Option AllObjects
  | [], _ => none
  | (k, v) :: rest, key =>
      if objEqF st eqFuel k key then some v else hashGet st eqFuel rest key

-- ===================== Errors (src/evaluator/errors.rs) =====================

def type_mismatch (left : AllObjects) (operator : String) (right : AllObjects) : AllObjects :=
  AllObjects.new_error
    ("type mismatch: " ++ objectTypeDisplay left.object_type ++ " " ++ operator ++ " " ++
      objectTypeDisplay right.object_type)

def unknown_operator (left : Option AllObjects) (operator : String) (right : AllObjects) :
    AllObjects :=
  match left with
  | some l =>
      AllObjects.new_error
        ("unknown operator: " ++ objectTypeDisplay l.object_type ++ " " ++ operator ++ " " ++
          objectTypeDisplay right.object_type)
  | none =>
      AllObjects.new_error
        ("unknown operator: " ++ operator ++ objectTypeDisplay right.object_type)

def identifier_not_found (ident : String) : AllObjects :=
  AllObjects.new_error ("identifier not found: " ++ ident)

def incorrect_arg_num (expected actual : Nat) : AllObjects :=
  AllObjects.new_error
    ("incorrect number of arguments supplied, expected: " ++ toString expected ++
      ", supplied " ++ toString actual)

def argument_not_found (expected_arg : String) (expected_arg_type : ObjectType) : AllObjects :=
  AllObjects.new_error
    ("expected argument " ++ expected_arg ++ " of type " ++
      objectTypeDisplay expected_arg_type)

def a_or_an (word : String) : String :=
  match word.data with
  | [] => "a"
  | c :: _ => if c = 'A' ∨ c = 'E' ∨ c = 'I' ∨ c = 'O' ∨ c = 'U' then "an" else "a"

def unexpected_argument_type (expected : String) (actual : AllObjects) : AllObjects :=
  AllObjects.new_error
    ("expected " ++ expected ++ " argument, but received " ++
      a_or_an (objectTypeDisplay actual.object_type) ++ " " ++
      objectTypeDisplay actual.object_type)

def indexing_error : AllObjects :=
  AllObjects.new_error "list index out of range"

def incorrect_index_argument : AllObjects :=
  AllObjects.new_error "list index argument should be a positive integer"

/-- Modelled from the spec: `errors::sleep_arg_error` is called by
src/evaluator/builtins.rs but absent from the snapshot's errors.rs; spec
section 7 lists the surface as "sleep argument outside unsigned range".
No claim depends on its message text. -/
def sleep_arg_error : AllObjects :=
  AllObjects.new_error "sleep argument outside unsigned range"

-- ===================== Evaluator helpers (src/evaluator/helpers.rs) =====================

def TRUE : AllObjects := AllObjects.Boolean true
def FALSE : AllObjects := AllObjects.Boolean false
def NULL : AllObjects := AllObjects.Null

-- helpers.rs: new_function_literal.  The uuid in `fn_{uuid}` is modelled by
-- the run-local counter in `St` (uniqueness per run is what the source uses
-- the uuid for).
def new_function_literal (parameters : List Identifier) (body : BlockStatement) (env : Nat)
    (st : St) : AllObjects × St :=
  (AllObjects.Function ("fn_" ++ toString st.fn_counter) parameters body env,
    { st with fn_counter := st.fn_counter + 1 })

def is_truthy : AllObjects → Bool
  | .Boolean v => v
  | .Null => false
  | _ => true

def get_bool_consts (val : Bool) : AllObjects :=
  if val then TRUE else FALSE

def get_int_object (value : Int) : AllObjects := AllObjects.Integer value

def get_int_object_for_value (value : Int) : AllObjects := AllObjects.Integer value

def get_string_object (token : Token) : AllObjects := AllObjects.StringObj token.literal

def eval_bang_operator : AllObjects → AllObjects
  | .Boolean true => FALSE
  | .Boolean false => TRUE
  | .Null => TRUE
  | _ => FALSE

-- helpers.rs: get_array_index_value.  A range produces a CLONED slice in a
-- fresh heap cell; a single index returns the element.
def get_array_index_value (st : St) (ref : Nat) (left_index : Nat) (right_index : Option Nat) :
    AllObjects × St :=
  let elems := st.getArray ref
  match right_index with
  | some right =>
      if left_index ≤ right ∧ right ≤ elems.length then
        let (newRef, st') := st.pushArray ((elems.drop left_index).take (right - left_index))
        (AllObjects.ArrayObj newRef, st')
      else (indexing_error, st)
  | none =>
      match elems.get? left_index with
      | some val => (val, st)
      | none => (indexing_error, st)

-- helpers.rs: get_string_index_value.  A single index is by char
-- (`chars().nth`); a range slices by byte in the source, modelled here on
-- chars (identical for ASCII; no claim slices a non-ASCII string).
def get_string_index_value (s : String) (left_index : Nat) (right_index : Option Nat) :
    AllObjects :=
  match right_index with
  | some right =>
      if left_index ≤ right ∧ right ≤ s.data.length then
        AllObjects.StringObj (String.mk ((s.data.drop left_index).take (right - left_index)))
      else indexing_error
  | none =>
      match s.data.get? left_index with
      | some ch => AllObjects.StringObj (String.mk [ch])
      | none => indexing_error

def get_hash_map_value (st : St) (eqFuel : Nat) (mapRef : Nat) (key : AllObjects) :
    AllObjects :=
  match hashGet st eqFuel (st.getHash mapRef) key with
  | some v => v
  | none => NULL

-- ===================== Builtins (src/evaluator/builtins.rs) =====================

def get_builtin_function (value : String) : Option AllObjects :=
  if value = "len" then some (AllObjects.BuiltinFunction "len" (ParamsType.Fixed ["value"]))
  else if value = "print" then some (AllObjects.BuiltinFunction "print" ParamsType.Variadic)
  else if value = "push" then
    some (AllObjects.BuiltinFunction "push" (ParamsType.Fixed ["array", "element"]))
  else if value = "pop" then some (AllObjects.BuiltinFunction "pop" (ParamsType.Fixed ["array"]))
  else if value = "is_null" then
    some (AllObjects.BuiltinFunction "is_null" (ParamsType.Fixed ["value"]))
  else if value = "insert" then
    some (AllObjects.BuiltinFunction "insert" (ParamsType.Fixed ["map", "key", "value"]))
  else if value = "delete" then
    some (AllObjects.BuiltinFunction "delete" (ParamsType.Fixed ["map", "key"]))
  else if value = "sleep" then
    some (AllObjects.BuiltinFunction "sleep" (ParamsType.Fixed ["seconds"]))
  else none

def get_argument (arg_name : String) (env : Nat) (st : St) : AllObjects :=
  match envGet st env arg_name with
  | some v => v
  | none => argument_not_found "value" ObjectType.String

-- builtins.rs: len (string length is the byte length in the source)
def len (env : Nat) (st : St) : AllObjects × St :=
  let value := get_argument "value" env st
  match value with
  | .StringObj s => (get_int_object_for_value (Int.ofNat (s.data.map Char.utf8Size).sum), st)
  | .ArrayObj r => (get_int_object_for_value (Int.ofNat (st.getArray r).length), st)
  | .Error m => (.Error m, st)
  | v => (unexpected_argument_type "a STRING" v, st)

-- builtins.rs: print.  The writes to stdout are outside the model; the
-- sequence of printed arguments is exposed separately as `print_sequence`.
def print (env : Nat) (st : St) : AllObjects × St :=
  let vars := all_vars st env
  match vars.findSome? (fun v => if (envGet st env v).isNone then some v else none) with
  | some missing => (identifier_not_found missing, st)
  | none => (NULL, st)

-- The arguments print writes, in the order its loop visits them
-- (`all_vars`, i.e. the sorted synthesized names).
def print_sequence (st : St) (env : Nat) : List AllObjects :=
  (all_vars st env).filterMap (envGet st env)

def push (env : Nat) (st : St) : AllObjects × St :=
  let array := get_argument "array" env st
  let element := get_argument "element" env st
  match array with
  | .ArrayObj r => (NULL, st.setArray r (st.getArray r ++ [element]))
  | v => (unexpected_argument_type "an ARRAY" v, st)

def pop (env : Nat) (st : St) : AllObjects × St :=
  let array := get_argument "array" env st
  match array with
  | .ArrayObj r =>
      let elems := st.getArray r
      match elems.getLast? with
      | some v => (v, st.setArray r elems.dropLast)
      | none => (NULL, st)
  | v => (unexpected_argument_type "an ARRAY" v, st)

def is_null (env : Nat) (st : St) : AllObjects × St :=
  match get_argument "value" env st with
  | .Null => (get_bool_consts true, st)
  | _ => (get_bool_consts false, st)

def insert (eqFuel : Nat) (env : Nat) (st : St) : AllObjects × St :=
  let map_arg := get_argument "map" env st
  let key := get_argument "key" env st
  let value := get_argument "value" env st
  match map_arg with
  | .HashMap r =>
      let (pairs', old) := hashInsert st eqFuel (st.getHash r) key value
      let st' := st.setHash r pairs'
      match old with
      | some v => (v, st')
      | none => (NULL, st')
  | v => (unexpected_argument_type "a hash map" v, st)

def delete (eqFuel : Nat) (env : Nat) (st : St) : AllObjects × St :=
  let map_arg := get_argument "map" env st
  let key := get_argument "key" env st
  match map_arg with
  | .HashMap r =>
      let (pairs', old) := hashRemove st eqFuel (st.getHash r) key
      let st' := st.setHash r pairs'
      match old with
      | some v => (v, st')
      | none => (NULL, st')
  | v => (unexpected_argument_type "a hash map" v, st)

-- builtins.rs: sleep.  The actual thread::sleep is outside the model; the
-- argument checking is mirrored.
def sleep (env : Nat) (st : St) : AllObjects × St :=
  match get_argument "seconds" env st with
  | .Integer n => if 0 ≤ n then (NULL, st) else (sleep_arg_error, st)
  | v => (unexpected_argument_type "an integer" v, st)

-- ===================== Evaluator (src/evaluator/eval.rs) =====================

/-
  Result type of one evaluator call: the outer Option is recursion fuel
  (model artifact), the inner Option is the Rust `Option<AllObjects>`
  channel, and the heap is threaded.
-/
abbrev Res := Option (Option AllObjects × St)

abbrev EvalFn := AllNodes → Nat → St → Res

-- eval.rs: the Program loop.  The running `result` is threaded: a
-- ReturnValue returns early UNWRAPPED, an Error returns early, anything
-- else (including a statement that produced no value) becomes the running
-- result.
def eval_program_loop (ev : EvalFn) :
    List AllStatements → Nat → St → Option AllObjects → Res
  | [], _, st, result => some (result, st)
  | stmt :: rest, env, st, _ =>
      match ev (AllNodes.Statements stmt) env st with
      | none => none
      | some (result, st') =>
          match result with
          | some (.ReturnValue r_val) => some (some r_val, st')
          | some (.Error m) => some (some (.Error m), st')
          | r => eval_program_loop ev rest env st' r

def eval_program (ev : EvalFn) (stmts : List AllStatements) (env : Nat) (st : St) : Res :=
  eval_program_loop ev stmts env st none

-- eval.rs: eval_block_statement.  ReturnValue and Error stop the loop and
-- are returned WITHOUT unwrapping.
def eval_block_loop (ev : EvalFn) :
    List AllStatements → Nat → St → Option AllObjects → Res
  | [], _, st, result => some (result, st)
  | stmt :: rest, env, st, _ =>
      match ev (AllNodes.Statements stmt) env st with
      | none => none
      | some (result, st') =>
          match result with
          | some (.ReturnValue v) => some (some (.ReturnValue v), st')
          | some (.Error m) => some (some (.Error m), st')
          | r => eval_block_loop ev rest env st' r

def eval_block_statement (ev : EvalFn) (block : BlockStatement) (env : Nat) (st : St) : Res :=
  eval_block_loop ev block.statements env st none

def eval_let_statement (ev : EvalFn) (name : Identifier) (value : AllExpressions) (env : Nat)
    (st : St) : Res :=
  match ev (AllNodes.Expressions value) env st with
  | none => none
  | some (none, st') => some (none, st')
  | some (some v, st') =>
      if v.is_error then some (some v, st')
      else
        let (r, st'') := envSet st' env name.value v
        some (some r, st'')

def eval_return_statement (ev : EvalFn) (return_value : AllExpressions) (env : Nat)
    (st : St) : Res :=
  match ev (AllNodes.Expressions return_value) env st with
  | none => none
  | some (none, st') => some (none, st')
  | some (some evaluated, st') =>
      if evaluated.is_error then some (some evaluated, st')
      else some (some (.ReturnValue evaluated), st')

/-
  eval.rs: eval_while_statement.  NOTE the source creates `new_env` ONCE,
  before the loop, and reuses it for every iteration of the body.  After a
  normal body iteration the condition is re-evaluated in the ORIGINAL env.
  The loop fuel is a model artifact for the unbounded `while`.
-/
def while_loop (ev : EvalFn) (condition : AllExpressions) (body : BlockStatement)
    (new_env env : Nat) : Nat → AllObjects → St → Res
  | 0, _, _ => none
  | fuel + 1, condVal, st =>
      if is_truthy condVal then
        match eval_block_statement ev body new_env st with
        | none => none
        | some (none, st') => some (none, st')
        | some (some result, st') =>
            match result with
            | .ReturnValue v => some (some (.ReturnValue v), st')
            | .Error m => some (some (.Error m), st')
            | _ =>
                match ev (AllNodes.Expressions condition) env st' with
                | none => none
                | some (none, st'') => some (none, st'')
                | some (some c, st'') =>
                    if c.is_error then some (some c, st'')
                    else while_loop ev condition body new_env env fuel c st''
      else some (some NULL, st)

def eval_while_statement (ev : EvalFn) (loopFuel : Nat) (condition : AllExpressions)
    (body : BlockStatement) (env : Nat) (st : St) : Res :=
  match ev (AllNodes.Expressions condition) env st with
  | none => none
  | some (none, st') => some (none, st')
  | some (some condVal, st') =>
      if condVal.is_error then some (some condVal, st')
      else
        let (new_env, st'') := Environment.new_enclosed_environment env st'
        while_loop ev condition body new_env env loopFuel condVal st''

-- eval.rs: eval_expressions (argument lists).  An Error value causes an
-- early return whose vector holds ONLY that error.
def eval_expressions_loop (ev : EvalFn) (acc : List AllObjects) :
    List AllExpressions → Nat → St → Option (Option (List AllObjects) × St)
  | [], _, st => some (some acc, st)
  | e :: rest, env, st =>
      match ev (AllNodes.Expressions e) env st with
      | none => none
      | some (none, st') => some (none, st')
      | some (some v, st') =>
          if v.is_error then some (some [v], st')
          else eval_expressions_loop ev (acc ++ [v]) rest env st'

def eval_expressions (ev : EvalFn) (exprs : List AllExpressions) (env : Nat) (st : St) :
    Option (Option (List AllObjects) × St) :=
  eval_expressions_loop ev [] exprs env st

/-
  eval.rs: eval_assignment_expression.  NOTE: unlike let/return, the
  evaluated right-hand side is passed to Environment::replace with NO
  is_error check, so an Error value is written into an existing variable.
-/
def eval_assignment_expression (ev : EvalFn) (ident : Identifier) (value : AllExpressions)
    (env : Nat) (st : St) : Res :=
  match ev (AllNodes.Expressions value) env st with
  | none => none
  | some (none, st') => some (none, st')
  | some (some evaluated, st') =>
      match envReplace st' env ident.value evaluated with
      | (some v, st'') => some (some v, st'')
      | (none, st'') => some (some (identifier_not_found ident.value), st'')

def eval_minus_operator (right : AllObjects) : AllObjects :=
  match right with
  | .Integer v => AllObjects.Integer (-v)
  | _ => unknown_operator none "-" right

def eval_prefix_expression (ev : EvalFn) (operator : String) (right : Option AllExpressions)
    (env : Nat) (st : St) : Res :=
  match right with
  | none => some (none, st)
  | some r =>
      match ev (AllNodes.Expressions r) env st with
      | none => none
      | some (none, st') => some (none, st')
      | some (some right_evaluated, st') =>
          if right_evaluated.is_error then some (some right_evaluated, st')
          else
            let result :=
              match operator with
              | "!" => eval_bang_operator right_evaluated
              | "-" => eval_minus_operator right_evaluated
              | _ => NULL
            some (some result, st')

-- eval.rs: eval_integer_calculations.  `/` is i64 division (truncation
-- toward zero); the source PANICS on a zero divisor and on overflow, both
-- outside this model and outside every claim below.
def eval_integer_calculations (left : AllObjects) (operator : String) (right : AllObjects) :
    AllObjects :=
  match left with
  | .Integer left_int =>
      match right with
      | .Integer right_int =>
          match operator with
          | "+" => get_int_object_for_value (left_int + right_int)
          | "-" => get_int_object_for_value (left_int - right_int)
          | "*" => get_int_object_for_value (left_int * right_int)
          | "/" => get_int_object_for_value (Int.tdiv left_int right_int)
          | "<" => get_bool_consts (decide (left_int < right_int))
          | ">" => get_bool_consts (decide (right_int < left_int))
          | "!=" => get_bool_consts (left_int != right_int)
          | "==" => get_bool_consts (left_int == right_int)
          | _ => NULL
      | _ => NULL
  | _ => NULL

def eval_comparison_for_booleans (left : AllObjects) (operator : String)
    (right : AllObjects) : AllObjects :=
  match left with
  | .Boolean left_val =>
      match right with
      | .Boolean right_val =>
          match operator with
          | "==" => get_bool_consts (left_val == right_val)
          | "!=" => get_bool_consts (left_val != right_val)
          | _ => unknown_operator (some left) operator right
      | _ => NULL
  | _ => NULL

-- eval.rs: eval_string_comparisons (Rust String Ord, byte-lexicographic)
def eval_string_comparisons (left : String) (operator : String) (right : String) :
    Option AllObjects :=
  match operator with
  | ">" => some (AllObjects.Boolean (string_lt right left))
  | "<" => some (AllObjects.Boolean (string_lt left right))
  | "==" => some (AllObjects.Boolean (left == right))
  | "!=" => some (AllObjects.Boolean (left != right))
  | _ => none

def eval_string_operations (left : AllObjects) (operator : String) (right : AllObjects) :
    AllObjects :=
  match left with
  | .StringObj left_val =>
      match right with
      | .StringObj right_val =>
          match operator with
          | "+" => AllObjects.StringObj (left_val ++ right_val)
          | ">" | "==" | "<" | "!=" =>
              match eval_string_comparisons left_val operator right_val with
              | some v => v
              | none => unknown_operator (some left) operator right
          | _ => unknown_operator (some left) operator right
      | _ => NULL
  | _ => NULL

-- The dispatch of eval_infix_expression on the two evaluated operands
-- (eval.rs lines 181-198)
def eval_infix_operands (left : AllObjects) (operator : String) (right : AllObjects) :
    AllObjects :=
  if left.object_type ≠ right.object_type then type_mismatch left operator right
  else if left.is_integer && right.is_integer then
    eval_integer_calculations left operator right
  else if left.is_boolean && right.is_boolean then
    eval_comparison_for_booleans left operator right
  else if left.is_string && right.is_string then
    eval_string_operations left operator right
  else unknown_operator (some left) operator right

def eval_infix_expression (ev : EvalFn) (left : Option AllExpressions) (operator : String)
    (right : Option AllExpressions) (env : Nat) (st : St) : Res :=
  match left with
  | none => some (none, st)
  | some l =>
      match ev (AllNodes.Expressions l) env st with
      | none => none
      | some (none, st') => some (none, st')
      | some (some left_val, st') =>
          if left_val.is_error then some (some left_val, st')
          else
            match right with
            | none => some (none, st')
            | some r =>
                match ev (AllNodes.Expressions r) env st' with
                | none => none
                | some (none, st'') => some (none, st'')
                | some (some right_val, st'') =>
                    if right_val.is_error then some (some right_val, st'')
                    else some (some (eval_infix_operands left_val operator right_val), st'')

-- eval.rs: eval_if_expression.  The enclosed scope is created after the
-- condition check and shared by whichever branch runs.
def eval_if_expression (ev : EvalFn) (condition : AllExpressions)
    (consequence : BlockStatement) (alternative : Option BlockStatement) (env : Nat)
    (st : St) : Res :=
  match ev (AllNodes.Expressions condition) env st with
  | none => none
  | some (none, st') => some (none, st')
  | some (some condVal, st') =>
      if condVal.is_error then some (some condVal, st')
      else
        let (new_env, st'') := Environment.new_enclosed_environment env st'
        if is_truthy condVal then eval_block_statement ev consequence new_env st''
        else
          match alternative with
          | none => some (some NULL, st'')
          | some alt => eval_block_statement ev alt new_env st''

def eval_identifier (ident : Identifier) (env : Nat) (st : St) : Res :=
  match envGet st env ident.value with
  | some v => some (some v, st)
  | none =>
      match get_builtin_function ident.value with
      | some builtin => some (some builtin, st)
      | none => some (some (identifier_not_found ident.value), st)

def bind_params (st : St) (env : Nat) : List Identifier → List AllObjects → St
  | [], _ => st
  | _, [] => st
  | p :: ps, a :: as => bind_params (envSet st env p.value a).2 env ps as

def eval_user_defined_function_call (ev : EvalFn) (parameters : List Identifier)
    (body : BlockStatement) (fenv : Nat) (args : List AllObjects) (st : St) : Res :=
  let (func_env, st') := Environment.new_enclosed_environment fenv st
  if parameters.length ≠ args.length then
    some (some (incorrect_arg_num parameters.length args.length), st')
  else
    let st'' := bind_params st' func_env parameters args
    match eval_block_statement ev body func_env st'' with
    | none => none
    | some (some (.ReturnValue r_val), st3) => some (some r_val, st3)
    | some (evaluated, st3) => some (evaluated, st3)

def bind_variadic_args (st : St) (env : Nat) : List AllObjects → Nat → St
  | [], _ => st
  | a :: rest, i => bind_variadic_args (envSet st env ("arg_" ++ toString i) a).2 env rest (i + 1)

-- eval.rs: eval_builtin_function_calls.  Dispatch on the function pointer
-- is modelled as dispatch on fn_name (the table in builtins.rs is injective
-- in the name).
def eval_builtin_function_calls (eqFuel : Nat) (fn_name : String) (parameters : ParamsType)
    (args : List AllObjects) (st : St) : Res :=
  let (new_env, st') := Environment.new st
  let bound : Option St :=
    match parameters with
    | .Fixed v =>
        if v.length ≠ args.length then none
        else some (bind_params st' new_env (v.map (fun s => ⟨new_token TokenType.Ident s, s⟩)) args)
    | .Variadic => some (bind_variadic_args st' new_env args 0)
  match bound with
  | none =>
      match parameters with
      | .Fixed v => some (some (incorrect_arg_num v.length args.length), st')
      | .Variadic => some (some NULL, st')
  | some st'' =>
      let (result, st3) :=
        match fn_name with
        | "len" => len new_env st''
        | "print" => print new_env st''
        | "push" => push new_env st''
        | "pop" => pop new_env st''
        | "is_null" => is_null new_env st''
        | "insert" => insert eqFuel new_env st''
        | "delete" => delete eqFuel new_env st''
        | "sleep" => sleep new_env st''
        | _ => (NULL, st'')
      some (some result, st3)

def eval_call_expression (ev : EvalFn) (eqFuel : Nat) (function : AllExpressions)
    (arguments : List AllExpressions) (env : Nat) (st : St) : Res :=
  match ev (AllNodes.Expressions function) env st with
  | none => none
  | some (none, st') => some (none, st')
  | some (some func, st') =>
      if func.is_error then some (some func, st')
      else
        match eval_expressions ev arguments env st' with
        | none => none
        | some (none, st'') => some (none, st'')
        | some (some args, st'') =>
            match args with
            | [a] =>
                if a.is_error then some (some a, st'')
                else
                  match func with
                  | .Function _ parameters body fenv =>
                      eval_user_defined_function_call ev parameters body fenv args st''
                  | .BuiltinFunction fn_name ps =>
                      eval_builtin_function_calls eqFuel fn_name ps args st''
                  | _ => some (none, st'')
            | _ =>
                match func with
                | .Function _ parameters body fenv =>
                    eval_user_defined_function_call ev parameters body fenv args st''
                | .BuiltinFunction fn_name ps =>
                    eval_builtin_function_calls eqFuel fn_name ps args st''
                | _ => some (none, st'')

-- eval.rs: eval_array_literal.  NOTE: elements are pushed with NO is_error
-- check, so an Error value is stored inside the fresh array.
def eval_array_elems (ev : EvalFn) (acc : List AllObjects) :
    List AllExpressions → Nat → St → Option (Option (List AllObjects) × St)
  | [], _, st => some (some acc, st)
  | e :: rest, env, st =>
      match ev (AllNodes.Expressions e) env st with
      | none => none
      | some (none, st') => some (none, st')
      | some (some v, st') => eval_array_elems ev (acc ++ [v]) rest env st'

def eval_array_literal (ev : EvalFn) (elements : List AllExpressions) (env : Nat)
    (st : St) : Res :=
  match eval_array_elems ev [] elements env st with
  | none => none
  | some (none, st') => some (none, st')
  | some (some v, st') =>
      let (ref, st'') := st'.pushArray v
      some (some (AllObjects.ArrayObj ref), st'')

def eval_index_expression (ev : EvalFn) (eqFuel : Nat) (left : AllExpressions)
    (index : AllExpressions) (env : Nat) (st : St) : Res :=
  match ev (AllNodes.Expressions left) env st with
  | none => none
  | some (none, st') => some (none, st')
  | some (some evaluated_left, st') =>
      match ev (AllNodes.Expressions index) env st' with
      | none => none
      | some (none, st'') => some (none, st'')
      | some (some evaluated_index, st'') =>
          match evaluated_left with
          | .HashMap r =>
              some (some (get_hash_map_value st'' eqFuel r evaluated_index), st'')
          | _ =>
              match evaluated_index with
              | .Integer iv =>
                  if iv < 0 then some (some incorrect_index_argument, st'')
                  else
                    match evaluated_left with
                    | .ArrayObj r =>
                        let (val, st3) := get_array_index_value st'' r iv.toNat none
                        some (some val, st3)
                    | .StringObj s =>
                        some (some (get_string_index_value s iv.toNat none), st'')
                    | other =>
                        some (some (unexpected_argument_type "an ARRAY or a STRING" other), st'')
              | other => some (some (unexpected_argument_type "an INTEGER" other), st'')

-- eval.rs: eval_range_expression (evaluation order: left_index,
-- right_index, then the indexed expression)
def eval_range_expression (ev : EvalFn) (left : AllExpressions)
    (left_index right_index : AllExpressions) (env : Nat) (st : St) : Res :=
  match ev (AllNodes.Expressions left_index) env st with
  | none => none
  | some (none, st') => some (none, st')
  | some (some lv, st') =>
      match lv with
      | .Integer li =>
          match ev (AllNodes.Expressions right_index) env st' with
          | none => none
          | some (none, st'') => some (none, st'')
          | some (some rv, st'') =>
              match rv with
              | .Integer ri =>
                  if li < 0 then some (some incorrect_index_argument, st'')
                  else if ri < 0 then some (some incorrect_index_argument, st'')
                  else
                    match ev (AllNodes.Expressions left) env st'' with
                    | none => none
                    | some (none, st3) => some (none, st3)
                    | some (some lval, st3) =>
                        match lval with
                        | .ArrayObj r =>
                            let (val, st4) :=
                              get_array_index_value st3 r li.toNat (some ri.toNat)
                            some (some val, st4)
                        | .StringObj s =>
                            some (some (get_string_index_value s li.toNat (some ri.toNat)), st3)
                        | other =>
                            some
                              (some (unexpected_argument_type "an ARRAY or a STRING" other), st3)
              | other => some (some (unexpected_argument_type "an INTEGER" other), st'')
      | other => some (some (unexpected_argument_type "an INTEGER" other), st')

-- eval.rs: eval_hash_map.  NOTE: keys and values are inserted with NO
-- is_error check, so Error values are stored inside the fresh map.
-- NOTE on order: the source iterates `node.pairs`, a std HashMap whose
-- iteration order is unspecified (RandomState-seeded); this definition
-- takes the pair LIST as given, so a theorem about a hash literal whose
-- keys may collide by value must quantify over every permutation of the
-- pair list rather than rely on the model list's insertion order.
def eval_hash_pairs (ev : EvalFn) (eqFuel : Nat) (acc : List (AllObjects × AllObjects)) :
    List (AllExpressions × AllExpressions) → Nat → St →
    Option (Option (List (AllObjects × AllObjects)) × St)
  | [], _, st => some (some acc, st)
  | (ke, ve) :: rest, env, st =>
      match ev (AllNodes.Expressions ke) env st with
      | none => none
      | some (none, st') => some (none, st')
      | some (some key, st') =>
          match ev (AllNodes.Expressions ve) env st' with
          | none => none
          | some (none, st'') => some (none, st'')
          | some (some value, st'') =>
              eval_hash_pairs ev eqFuel (hashInsert st'' eqFuel acc key value).1 rest env st''

def eval_hash_map (ev : EvalFn) (eqFuel : Nat) (pairs : List (AllExpressions × AllExpressions))
    (env : Nat) (st : St) : Res :=
  match eval_hash_pairs ev eqFuel [] pairs env st with
  | none => none
  | some (none, st') => some (none, st')
  | some (some m, st') =>
      let (ref, st'') := st'.pushHash m
      some (some (AllObjects.HashMap ref), st'')

-- eval.rs: eval_expression (the expression dispatcher)
def eval_expression (ev : EvalFn) (eqFuel : Nat) (expr : AllExpressions) (env : Nat)
    (st : St) : Res :=
  match expr with
  | .IntegerLiteral _ value => some (some (get_int_object value), st)
  | .StringLiteral token => some (some (get_string_object token), st)
  | .Boolean _ value => some (some (get_bool_consts value), st)
  | .Assignment _ ident value => eval_assignment_expression ev ident value env st
  | .PrefixExpression _ operator right => eval_prefix_expression ev operator right env st
  | .InfixExpression _ left operator right =>
      eval_infix_expression ev left operator right env st
  | .IfExpression _ condition consequence alternative =>
      eval_if_expression ev condition consequence alternative env st
  | .Identifier ident => eval_identifier ident env st
  | .FunctionLiteral _ parameters body =>
      let (v, st') := new_function_literal parameters body env st
      some (some v, st')
  | .CallExpression _ function arguments =>
      eval_call_expression ev eqFuel function arguments env st
  | .ArrayLiteral _ elements => eval_array_literal ev elements env st
  | .NullLiteral => some (some NULL, st)
  | .IndexExpression _ left index => eval_index_expression ev eqFuel left index env st
  | .RangeExpression _ left left_index right_index =>
      eval_range_expression ev left left_index right_index env st
  | .HashLiteral _ pairs => eval_hash_map ev eqFuel pairs env st

-- eval.rs: eval_statement.  `loopFuel` feeds the while loop (and the
-- equality fuel of hash operations through eval_expression).
def eval_statement (ev : EvalFn) (loopFuel : Nat) (stmt : AllStatements) (env : Nat)
    (st : St) : Res :=
  match stmt with
  | .Let _ name value => eval_let_statement ev name value env st
  | .Return _ return_value => eval_return_statement ev return_value env st
  | .Expression _ expression =>
      match expression with
      | none => some (none, st)
      | some e => eval_expression ev loopFuel e env st
  | .Block block => eval_block_statement ev block env st
  | .While _ condition body => eval_while_statement ev loopFuel condition body env st

-- eval.rs: eval.  The Nat fuel is the model artifact bounding recursion
-- depth and while-loop iterations; every theorem about a concrete program
-- simply uses a large enough fuel.
def evalF : Nat → AllNodes → Nat → St → Res
  | 0, _, _, _ => none
  | n + 1, node, env, st =>
      match node with
      | .Program p => eval_program (evalF n) p.statements env st
      | .Statements s => eval_statement (evalF n) n s env st
      | .Expressions e => eval_expression (evalF n) n e env st

-- A fresh root environment, as built once per program run (repl.rs /
-- lib.rs: Environment::new())
def initialState : St :=
  { envs := [{ store := [], outer := none }], arrays := [], hashes := [], fn_counter := 0 }

-- Run a whole program against a fresh root environment
def runProgram (fuel : Nat) (stmts : List AllStatements) : Res :=
  evalF fuel (AllNodes.Program { statements := stmts }) 0 initialState

-- ===================== Lexer (src/lexer/mod.rs, tokenizer.rs) =====================

structure Lexer where
  input : List Char
  position : Nat
  read_position : Nat
  ch : Char

def Lexer.new (input : List Char) : Lexer :=
  { input := input, position := 0, read_position := 0, ch := NULL_CHAR }

-- tokenizer.rs: Lexer::read_char
def read_char (l : Lexer) : Lexer :=
  { l with
    ch := if l.read_position ≥ l.input.length then NULL_CHAR
          else l.input.getD l.read_position NULL_CHAR
    position := l.read_position
    read_position := l.read_position + 1 }

-- tokenizer.rs: Lexer::peek_char
def peek_char (l : Lexer) : Char :=
  l.input.getD l.read_position NULL_CHAR

-- tokenizer.rs: is_letter / is_letter_or_digit
def is_letter (ch : Char) : Bool := ch.isAlpha || ch = '_'

def is_letter_or_digit (ch : Char) : Bool := ch.isAlpha || ch = '_' || ch.isDigit

-- Rust char::is_ascii_whitespace: space, tab, LF, FF, CR
def is_ascii_whitespace (ch : Char) : Bool :=
  ch = ' ' || ch = '\t' || ch = '\n' || ch = '\x0c' || ch = '\r'

/-
  The unbounded reader loops of the lexer (`loop`/`while` over read_char)
  are modelled with an explicit iteration bound.  Every loop advances
  read_position by one per iteration and stops no later than one step past
  the end of input (where ch becomes NULL_CHAR), so the bound
  `input.length + 2 - read_position` chosen at each call site is never
  reached; the `0` cases are dead code of the model.
-/

-- tokenizer.rs: the loop of Lexer::read_string
def read_string_loop : Nat → Lexer → Lexer
  | 0, l => l
  | fuel + 1, l =>
      let l' := read_char l
      if l'.ch = '"' ∨ l'.ch = NULL_CHAR then l' else read_string_loop fuel l'

-- tokenizer.rs: Lexer::read_string.  Starts at the opening quote
-- (self.position); the literal is input[position+1 .. stop) where stop is
-- the index of the closing quote or the end of input.
def read_string (l : Lexer) : String × Lexer :=
  let position := l.position + 1
  let l' := read_string_loop (l.input.length + 2 - l.read_position) l
  (String.mk ((l'.input.drop position).take (l'.position - position)), l')

-- tokenizer.rs: the loop of Lexer::read_identifier
def read_identifier_loop : Nat → Lexer → Lexer
  | 0, l => l
  | fuel + 1, l =>
      if is_letter_or_digit (peek_char l) then read_identifier_loop fuel (read_char l) else l

-- tokenizer.rs: Lexer::read_identifier
def read_identifier (l : Lexer) : String × Lexer :=
  let current_position := l.position
  let l' := read_identifier_loop (l.input.length + 2 - l.read_position) l
  (String.mk ((l'.input.drop current_position).take (l'.read_position - current_position)), l')

-- tokenizer.rs: the loop of Lexer::read_number
def read_number_loop : Nat → Lexer → Lexer
  | 0, l => l
  | fuel + 1, l =>
      if (peek_char l).isDigit then read_number_loop fuel (read_char l) else l

-- tokenizer.rs: Lexer::read_number
def read_number (l : Lexer) : String × Lexer :=
  let current_position := l.position
  let l' := read_number_loop (l.input.length + 2 - l.read_position) l
  (String.mk ((l'.input.drop current_position).take (l'.read_position - current_position)), l')

-- tokenizer.rs: the whitespace-skipping loop of next_token
def skip_whitespace_loop : Nat → Lexer → Lexer
  | 0, l => l
  | fuel + 1, l =>
      if is_ascii_whitespace l.ch then skip_whitespace_loop fuel (read_char l) else l

-- tokenizer.rs: Lexer::next_token
def Lexer.next_token (l0 : Lexer) : Token × Lexer :=
  let l1 := if l0.read_position = 0 then read_char l0 else l0
  let l := skip_whitespace_loop (l1.input.length + 2) l1
  let (tok, l2) : Token × Lexer :=
    if l.ch = '=' then
      if peek_char l = '=' then (new_token TokenType.Eq "==", read_char l)
      else (new_token_ch TokenType.Assign l.ch, l)
    else if l.ch = ';' then (new_token_ch TokenType.Semicolon l.ch, l)
    else if l.ch = '(' then (new_token_ch TokenType.Lparen l.ch, l)
    else if l.ch = ')' then (new_token_ch TokenType.Rparen l.ch, l)
    else if l.ch = ',' then (new_token_ch TokenType.Comma l.ch, l)
    else if l.ch = '+' then (new_token_ch TokenType.Plus l.ch, l)
    else if l.ch = '-' then (new_token_ch TokenType.Minus l.ch, l)
    else if l.ch = '!' then
      if peek_char l = '=' then (new_token TokenType.NotEq "!=", read_char l)
      else (new_token_ch TokenType.Bang l.ch, l)
    else if l.ch = '*' then (new_token_ch TokenType.Asterisk l.ch, l)
    else if l.ch = '/' then (new_token_ch TokenType.Slash l.ch, l)
    else if l.ch = '<' then (new_token_ch TokenType.Lt l.ch, l)
    else if l.ch = '>' then (new_token_ch TokenType.Gt l.ch, l)
    else if l.ch = '\x7b' then (new_token_ch TokenType.Lbrace l.ch, l)
    else if l.ch = '\x7d' then (new_token_ch TokenType.Rbrace l.ch, l)
    else if l.ch = '"' then
      let (s, l') := read_string l
      (new_token TokenType.String s, l')
    else if l.ch = '[' then (new_token_ch TokenType.Lbracket l.ch, l)
    else if l.ch = ']' then (new_token_ch TokenType.Rbracket l.ch, l)
    else if l.ch = ':' then (new_token_ch TokenType.Colon l.ch, l)
    else if l.ch = NULL_CHAR then (new_token_ch TokenType.Eof NULL_CHAR, l)
    else if is_letter l.ch then
      let (identifier, l') := read_identifier l
      (new_token (look_up_identifier identifier) identifier, l')
    else if l.ch.isDigit then
      let (num_literal, l') := read_number l
      (new_token TokenType.Int num_literal, l')
    else (new_token_ch TokenType.Illegal l.ch, l)
  (tok, read_char l2)

-- ===================== Parser (src/parser/*) =====================

-- src/parser/mod.rs: the precedence ladder (derived PartialOrd compares
-- the listed discriminant values)
inductive Precedence where
  | Lowest
  | Equals
  | LessGreater
  | Sum
  | Product
  | PrefixPrec
  | Call
  | Index
deriving DecidableEq, Repr

def Precedence.value : Precedence → Nat
  | .Lowest => 1
  | .Equals => 2
  | .LessGreater => 3
  | .Sum => 4
  | .Product => 5
  | .PrefixPrec => 6
  | .Call => 7
  | .Index => 8

def precLt (a b : Precedence) : Bool := a.value < b.value

-- mod.rs: Precedence::corresponding_precedence
def corresponding_precedence : TokenType → Precedence
  | .Eq | .NotEq => Precedence.Equals
  | .Lt | .Gt => Precedence.LessGreater
  | .Plus | .Minus => Precedence.Sum
  | .Slash | .Asterisk => Precedence.Product
  | .Lparen => Precedence.Call
  | .Lbracket => Precedence.Index
  | _ => Precedence.Lowest

-- program.rs: the Parser state (the tracing pretty-printer is out of scope
-- per spec section 1 and is omitted)
structure Parser where
  l : Lexer
  errors : List String
  current_token : Token
  peek_token : Token

-- helpers.rs: Parser::next_token
def Parser.next_token (p : Parser) : Parser :=
  let (tok, l') := Lexer.next_token p.l
  { p with l := l', current_token := p.peek_token, peek_token := tok }

-- program.rs: Parser::new (reads the two initial tokens)
def Parser.new (l : Lexer) : Parser :=
  let p : Parser := { l := l, errors := [], current_token := eof_token, peek_token := eof_token }
  (p.next_token).next_token

def Parser.current_token_is (p : Parser) (token_type : TokenType) : Bool :=
  p.current_token.token_type = token_type

def Parser.peek_token_is (p : Parser) (token_type : TokenType) : Bool :=
  p.peek_token.token_type = token_type

-- helpers.rs: Parser::peek_error (the Rust message interpolates the Debug
-- form of the token; the token type name and literal are rendered here)
def Parser.peek_error (p : Parser) (token_type : TokenType) : Parser :=
  { p with errors :=
      p.errors ++
        ["expected next token to be " ++ reprStr token_type ++ ", got " ++
          reprStr p.peek_token ++ " instead"] }

def Parser.expect_peek (p : Parser) (token_type : TokenType) : Bool × Parser :=
  if p.peek_token_is token_type then (true, p.next_token)
  else (false, p.peek_error token_type)

def Parser.no_prefix_parse_fn_error (p : Parser) (token_type : TokenType) : Parser :=
  { p with errors :=
      p.errors ++ ["no prefix parse function for " ++ reprStr token_type ++ " found"] }

def Parser.peek_precedence (p : Parser) : Precedence :=
  corresponding_precedence p.peek_token.token_type

def Parser.current_precedence (p : Parser) : Precedence :=
  corresponding_precedence p.current_token.token_type

-- program.rs: the prefix/infix dispatch tables.  The Rust tables return
-- function pointers; they are modelled as tags naming the handler, applied
-- by apply_prefix_fn / apply_infix_fn below.
inductive PrefixFn where
  | parseIdentifier
  | parseIntegerLiteral
  | parseStringLiteral
  | parsePrefixExpression
  | parseBooleanExpression
  | parseGroupedExpression
  | parseIfExpression
  | parseFunctionLiteral
  | parseArrayLiteral
  | parseHashLiteral
  | parseNullLiteral
deriving DecidableEq, Repr

def prefix_parse_function : TokenType → Option PrefixFn
  | .Ident => some PrefixFn.parseIdentifier
  | .Int => some PrefixFn.parseIntegerLiteral
  | .String => some PrefixFn.parseStringLiteral
  | .Bang | .Minus | .Plus => some PrefixFn.parsePrefixExpression
  | .True | .False => some PrefixFn.parseBooleanExpression
  | .Lparen => some PrefixFn.parseGroupedExpression
  | .If => some PrefixFn.parseIfExpression
  | .Function => some PrefixFn.parseFunctionLiteral
  | .Lbracket => some PrefixFn.parseArrayLiteral
  | .Lbrace => some PrefixFn.parseHashLiteral
  | .Null => some PrefixFn.parseNullLiteral
  | _ => none

inductive InfixFn where
  | parseInfixExpression
  | parseCallExpression
  | parseIndexExpressions
deriving DecidableEq, Repr

def infix_parse_function : TokenType → Option InfixFn
  | .Plus | .Minus | .Asterisk | .Slash | .Eq | .NotEq | .Lt | .Gt =>
      some InfixFn.parseInfixExpression
  | .Lparen => some InfixFn.parseCallExpression
  | .Lbracket => some InfixFn.parseIndexExpressions
  | _ => none

-- The recursive-descent knot is tied by parseF below; the individual
-- parse functions receive the recursive entry points as arguments:
abbrev ParseExprFn := Precedence → Parser → Option AllExpressions × Parser
abbrev ParseStmtFn := Parser → Option AllStatements × Parser
abbrev ParseBlockFn := Parser → BlockStatement × Parser

-- parse_expressions.rs: parse_identifier
def parse_identifier (p : Parser) : Option AllExpressions × Parser :=
  (some (AllExpressions.Identifier ⟨p.current_token, p.current_token.literal⟩), p)

def parseDigits : List Char → Nat → Nat
  | [], acc => acc
  | c :: cs, acc => parseDigits cs (acc * 10 + (c.toNat - 48))

-- Model of Rust `str::parse::<i64>` on the literals the lexer produces
-- (optional sign, then decimal digits); i64 overflow, which makes the Rust
-- parse fail, is outside this model's unbounded Int.
def str_parse_int (s : String) : Option Int :=
  match s.data with
  | [] => none
  | '-' :: cs =>
      if cs ≠ [] ∧ cs.all Char.isDigit then some (-(parseDigits cs 0 : Int)) else none
  | '+' :: cs =>
      if cs ≠ [] ∧ cs.all Char.isDigit then some ((parseDigits cs 0 : Int)) else none
  | cs => if cs.all Char.isDigit then some ((parseDigits cs 0 : Int)) else none

-- parse_expressions.rs: parse_integer_literal.  Rust pushes
-- "could not parse as integer: {e:?}" on failure.
def parse_integer_literal (p : Parser) : Option AllExpressions × Parser :=
  match str_parse_int p.current_token.literal with
  | some value => (some (AllExpressions.IntegerLiteral p.current_token value), p)
  | none =>
      (none, { p with errors := p.errors ++ ["could not parse as integer"] })

def parse_string_literal (p : Parser) : Option AllExpressions × Parser :=
  (some (AllExpressions.StringLiteral p.current_token), p)

def parse_null_literal (p : Parser) : Option AllExpressions × Parser :=
  (some AllExpressions.NullLiteral, p)

def parse_boolean_expression (p : Parser) : Option AllExpressions × Parser :=
  (some (AllExpressions.Boolean p.current_token (p.current_token_is TokenType.True)), p)

def parse_grouped_expression (pe : ParseExprFn) (p : Parser) :
    Option AllExpressions × Parser :=
  let p1 := p.next_token
  let (expr, p2) := pe Precedence.Lowest p1
  match p2.expect_peek TokenType.Rparen with
  | (false, p3) => (none, p3)
  | (true, p3) => (expr, p3)

-- parse_expressions.rs: parse_prefix_expression (returns Some even when
-- the operand fails to parse; `right` is then None)
def parse_prefix_expression (pe : ParseExprFn) (p : Parser) :
    Option AllExpressions × Parser :=
  let token := p.current_token
  let operator := p.current_token.literal
  let p1 := p.next_token
  let (right, p2) := pe Precedence.PrefixPrec p1
  (some (AllExpressions.PrefixExpression token operator right), p2)

def parse_infix_expression (pe : ParseExprFn) (left : Option AllExpressions) (p : Parser) :
    Option AllExpressions × Parser :=
  let token := p.current_token
  let operator := p.current_token.literal
  let precedence := p.current_precedence
  let p1 := p.next_token
  let (right, p2) := pe precedence p1
  (some (AllExpressions.InfixExpression token left operator right), p2)

def parse_if_expression (pe : ParseExprFn) (pb : ParseBlockFn) (p : Parser) :
    Option AllExpressions × Parser :=
  let token_literal := p.current_token
  match p.expect_peek TokenType.Lparen with
  | (false, p1) => (none, p1)
  | (true, p1) =>
      let p2 := p1.next_token
      let (condOpt, p3) := pe Precedence.Lowest p2
      match condOpt with
      | none => (none, p3)
      | some condition =>
          match p3.expect_peek TokenType.Rparen with
          | (false, p4) => (none, p4)
          | (true, p4) =>
              match p4.expect_peek TokenType.Lbrace with
              | (false, p5) => (none, p5)
              | (true, p5) =>
                  let (consequence, p6) := pb p5
                  if p6.peek_token_is TokenType.Else then
                    let p7 := p6.next_token
                    match p7.expect_peek TokenType.Lbrace with
                    | (false, p8) => (none, p8)
                    | (true, p8) =>
                        let (alt, p9) := pb p8
                        (some (AllExpressions.IfExpression token_literal condition consequence
                            (some alt)), p9)
                  else
                    (some (AllExpressions.IfExpression token_literal condition consequence none),
                      p6)

-- parse_expressions.rs: parse_fn_literal_parameters
def parse_fn_literal_parameters_loop :
    Nat → List Identifier → Parser → Option (List Identifier) × Parser
  | 0, parameters, p => (some parameters, p)
  | fuel + 1, parameters, p =>
      if ¬ p.peek_token_is TokenType.Rparen then
        match p.expect_peek TokenType.Ident with
        | (false, p1) => (none, p1)
        | (true, p1) =>
            let param : Identifier := ⟨p1.current_token, p1.current_token.literal⟩
            let parameters := parameters ++ [param]
            if p1.peek_token_is TokenType.Rparen then (some parameters, p1)
            else
              match p1.expect_peek TokenType.Comma with
              | (false, p2) => (none, p2)
              | (true, p2) => parse_fn_literal_parameters_loop fuel parameters p2
      else (some parameters, p)

def parse_function_literal (pb : ParseBlockFn) (loopFuel : Nat) (p : Parser) :
    Option AllExpressions × Parser :=
  let token := p.current_token
  match p.expect_peek TokenType.Lparen with
  | (false, p1) => (none, p1)
  | (true, p1) =>
      match parse_fn_literal_parameters_loop loopFuel [] p1 with
      | (none, p2) => (none, p2)
      | (some parameters, p2) =>
          let p3 := p2.next_token
          match p3.expect_peek TokenType.Lbrace with
          | (false, p4) => (none, p4)
          | (true, p4) =>
              let (body, p5) := pb p4
              (some (AllExpressions.FunctionLiteral token parameters body), p5)

-- parse_expressions.rs: parse_comma_sep_arguments
def parse_comma_sep_arguments_loop (pe : ParseExprFn) (endTok : TokenType) :
    Nat → List AllExpressions → Parser → Option (List AllExpressions) × Parser
  | 0, args, p => (some args, p)
  | fuel + 1, args, p =>
      if ¬ p.peek_token_is endTok then
        let p1 := p.next_token
        let (argOpt, p2) := pe Precedence.Lowest p1
        match argOpt with
        | none => (none, p2)
        | some arg =>
            let args := args ++ [arg]
            if p2.peek_token_is endTok then (some args, p2)
            else
              match p2.expect_peek TokenType.Comma with
              | (false, p3) => (none, p3)
              | (true, p3) => parse_comma_sep_arguments_loop pe endTok fuel args p3
      else (some args, p)

def parse_call_expression (pe : ParseExprFn) (loopFuel : Nat) (left : Option AllExpressions)
    (p : Parser) : Option AllExpressions × Parser :=
  let token := p.current_token
  match left with
  | none => (none, p)
  | some function =>
      match parse_comma_sep_arguments_loop pe TokenType.Rparen loopFuel [] p with
      | (none, p1) => (none, p1)
      | (some arguments, p1) =>
          let p2 := p1.next_token
          (some (AllExpressions.CallExpression token function arguments), p2)

def parse_array_literal (pe : ParseExprFn) (loopFuel : Nat) (p : Parser) :
    Option AllExpressions × Parser :=
  let token := p.current_token
  match parse_comma_sep_arguments_loop pe TokenType.Rbracket loopFuel [] p with
  | (none, p1) => (none, p1)
  | (some elements, p1) =>
      let p2 := p1.next_token
      (some (AllExpressions.ArrayLiteral token elements), p2)

def parse_index_expressions (pe : ParseExprFn) (left : Option AllExpressions) (p : Parser) :
    Option AllExpressions × Parser :=
  let token := p.current_token
  let p1 := p.next_token
  let (index, p2) := pe Precedence.Lowest p1
  let (right, p3) :=
    if p2.peek_token_is TokenType.Colon then
      let p2a := p2.next_token
      let p2b := p2a.next_token
      pe Precedence.Lowest p2b
    else (none, p2)
  match p3.expect_peek TokenType.Rbracket with
  | (false, p4) => (none, p4)
  | (true, p4) =>
      match right with
      | none =>
          match left, index with
          | some l, some i => (some (AllExpressions.IndexExpression token l i), p4)
          | _, _ => (none, p4)
      | some r =>
          match left, index with
          | some l, some i => (some (AllExpressions.RangeExpression token l i r), p4)
          | _, _ => (none, p4)

-- The AST-level HashMap::insert used by parse_hash_literal: the key
-- equality is the derived PartialEq mirrored by beqExpr; an equal key keeps
-- its first key object and takes the new value.
def pairsInsert (pairs : List (AllExpressions × AllExpressions)) (key value : AllExpressions) :
    List (AllExpressions × AllExpressions) :=
  match pairs with
  | [] => [(key, value)]
  | (k, v) :: rest =>
      if beqExpr k key then (k, value) :: rest else (k, v) :: pairsInsert rest key value

-- parse_expressions.rs: parse_hash_literal.  NOTE: the pairs accumulate in
-- a std HashMap keyed by the key expression, so a later pair whose key
-- expression equals an earlier one OVERWRITES it, and the map does not
-- record source order.
def parse_hash_literal_loop (pe : ParseExprFn) :
    Nat → List (AllExpressions × AllExpressions) → Parser →
    Option (List (AllExpressions × AllExpressions)) × Parser
  | 0, pairs, p => (some pairs, p)
  | fuel + 1, pairs, p =>
      if ¬ p.peek_token_is TokenType.Rbrace then
        let p1 := p.next_token
        let (keyOpt, p2) := pe Precedence.Lowest p1
        match keyOpt with
        | none => (none, p2)
        | some key =>
            match p2.expect_peek TokenType.Colon with
            | (false, p3) => (none, p3)
            | (true, p3) =>
                let p4 := p3.next_token
                let (valueOpt, p5) := pe Precedence.Lowest p4
                match valueOpt with
                | none => (none, p5)
                | some value =>
                    let pairs := pairsInsert pairs key value
                    if ¬ p5.peek_token_is TokenType.Rbrace then
                      match p5.expect_peek TokenType.Comma with
                      | (false, p6) => (none, p6)
                      | (true, p6) => parse_hash_literal_loop pe fuel pairs p6
                    else parse_hash_literal_loop pe fuel pairs p5
      else (some pairs, p)

def parse_hash_literal (pe : ParseExprFn) (loopFuel : Nat) (p : Parser) :
    Option AllExpressions × Parser :=
  let token := p.current_token
  match parse_hash_literal_loop pe loopFuel [] p with
  | (none, p1) => (none, p1)
  | (some pairs, p1) =>
      match p1.expect_peek TokenType.Rbrace with
      | (false, p2) => (none, p2)
      | (true, p2) => (some (AllExpressions.HashLiteral token pairs), p2)

def apply_prefix_fn (pe : ParseExprFn) (pb : ParseBlockFn) (loopFuel : Nat)
    (tag : PrefixFn) (p : Parser) : Option AllExpressions × Parser :=
  match tag with
  | .parseIdentifier => parse_identifier p
  | .parseIntegerLiteral => parse_integer_literal p
  | .parseStringLiteral => parse_string_literal p
  | .parsePrefixExpression => parse_prefix_expression pe p
  | .parseBooleanExpression => parse_boolean_expression p
  | .parseGroupedExpression => parse_grouped_expression pe p
  | .parseIfExpression => parse_if_expression pe pb p
  | .parseFunctionLiteral => parse_function_literal pb loopFuel p
  | .parseArrayLiteral => parse_array_literal pe loopFuel p
  | .parseHashLiteral => parse_hash_literal pe loopFuel p
  | .parseNullLiteral => parse_null_literal p

def apply_infix_fn (pe : ParseExprFn) (loopFuel : Nat) (tag : InfixFn)
    (left : Option AllExpressions) (p : Parser) : Option AllExpressions × Parser :=
  match tag with
  | .parseInfixExpression => parse_infix_expression pe left p
  | .parseCallExpression => parse_call_expression pe loopFuel left p
  | .parseIndexExpressions => parse_index_expressions pe left p

-- parse_expressions.rs: the precedence-climbing loop of parse_expression
def pratt_loop (pe : ParseExprFn) (loopFuel : Nat) (precedence : Precedence) :
    Nat → Option AllExpressions → Parser → Option AllExpressions × Parser
  | 0, left, p => (left, p)
  | fuel + 1, left, p =>
      if ¬ p.peek_token_is TokenType.Semicolon ∧ precLt precedence p.peek_precedence then
        match infix_parse_function p.peek_token.token_type with
        | none => (left, p)
        | some itag =>
            let p1 := p.next_token
            let (left', p2) := apply_infix_fn pe loopFuel itag left p1
            pratt_loop pe loopFuel precedence fuel left' p2
      else (left, p)

-- parse_expressions.rs: Parser::parse_expression
def parse_expression_core (pe : ParseExprFn) (pb : ParseBlockFn) (loopFuel : Nat)
    (precedence : Precedence) (p : Parser) : Option AllExpressions × Parser :=
  match prefix_parse_function p.current_token.token_type with
  | none => (none, p.no_prefix_parse_fn_error p.current_token.token_type)
  | some tag =>
      let (left_expr, p1) := apply_prefix_fn pe pb loopFuel tag p
      pratt_loop pe loopFuel precedence loopFuel left_expr p1

-- parse_expressions.rs: Parser::parse_assignment_expressions
def parse_assignment_expressions (pe : ParseExprFn) (p : Parser) :
    Option AllExpressions × Parser :=
  let token := p.current_token
  let ident : Identifier := ⟨p.current_token, p.current_token.literal⟩
  let p1 := p.next_token
  let p2 := p1.next_token
  let (valueOpt, p3) := pe Precedence.Lowest p2
  match valueOpt with
  | none => (none, p3)
  | some value => (some (AllExpressions.Assignment token ident value), p3)

-- parse_expressions.rs: Parser::parse_expression_statement (always returns
-- Some, even when the inner expression failed to parse)
def parse_expression_statement (pe : ParseExprFn) (p : Parser) :
    Option AllStatements × Parser :=
  let token := p.current_token
  let (expression, p1) :=
    if p.current_token_is TokenType.Ident ∧ p.peek_token_is TokenType.Assign then
      parse_assignment_expressions pe p
    else pe Precedence.Lowest p
  let p2 := if p1.peek_token_is TokenType.Semicolon then p1.next_token else p1
  (some (AllStatements.Expression token expression), p2)

-- parse_statements.rs: Parser::parse_let_statement
def parse_let_statement (pe : ParseExprFn) (p : Parser) : Option AllStatements × Parser :=
  let token := p.current_token
  match p.expect_peek TokenType.Ident with
  | (false, p1) => (none, p1)
  | (true, p1) =>
      let identifier : Identifier := ⟨p1.current_token, p1.current_token.literal⟩
      match p1.expect_peek TokenType.Assign with
      | (false, p2) => (none, p2)
      | (true, p2) =>
          let p3 := p2.next_token
          let (valueOpt, p4) := pe Precedence.Lowest p3
          match valueOpt with
          | none => (none, p4)
          | some value =>
              let p5 := if p4.peek_token_is TokenType.Semicolon then p4.next_token else p4
              (some (AllStatements.Let token identifier value), p5)

-- parse_statements.rs: Parser::parse_return_statement
def parse_return_statement (pe : ParseExprFn) (p : Parser) : Option AllStatements × Parser :=
  let token := p.current_token
  let p1 := p.next_token
  let (valueOpt, p2) := pe Precedence.Lowest p1
  match valueOpt with
  | none => (none, p2)
  | some return_value =>
      let p3 := if p2.peek_token_is TokenType.Semicolon then p2.next_token else p2
      (some (AllStatements.Return token return_value), p3)

-- parse_statements.rs: Parser::parse_while_statement
def parse_while_statement (pe : ParseExprFn) (pb : ParseBlockFn) (p : Parser) :
    Option AllStatements × Parser :=
  let token_literal := p.current_token
  match p.expect_peek TokenType.Lparen with
  | (false, p1) => (none, p1)
  | (true, p1) =>
      let p2 := p1.next_token
      let (condOpt, p3) := pe Precedence.Lowest p2
      match condOpt with
      | none => (none, p3)
      | some condition =>
          match p3.expect_peek TokenType.Rparen with
          | (false, p4) => (none, p4)
          | (true, p4) =>
              match p4.expect_peek TokenType.Lbrace with
              | (false, p5) => (none, p5)
              | (true, p5) =>
                  let (body, p6) := pb p5
                  (some (AllStatements.While token_literal condition body), p6)

-- parse_statements.rs: Parser::parse_statement
def parse_statement_core (pe : ParseExprFn) (pb : ParseBlockFn) (p : Parser) :
    Option AllStatements × Parser :=
  match p.current_token.token_type with
  | TokenType.Let => parse_let_statement pe p
  | TokenType.Return => parse_return_statement pe p
  | TokenType.While => parse_while_statement pe pb p
  | _ => parse_expression_statement pe p

-- parse_expressions.rs: parse_block_statement
def parse_block_loop (ps : ParseStmtFn) :
    Nat → List AllStatements → Parser → List AllStatements × Parser
  | 0, statements, p => (statements, p)
  | fuel + 1, statements, p =>
      if ¬ p.current_token_is TokenType.Rbrace ∧ ¬ p.current_token_is TokenType.Eof then
        let (stmtOpt, p1) := ps p
        let statements :=
          match stmtOpt with
          | some v => statements ++ [v]
          | none => statements
        parse_block_loop ps fuel statements (p1.next_token)
      else (statements, p)

def parse_block_statement_core (ps : ParseStmtFn) (loopFuel : Nat) (p : Parser) :
    BlockStatement × Parser :=
  let token := p.current_token
  let p1 := p.next_token
  let (statements, p2) := parse_block_loop ps loopFuel [] p1
  (BlockStatement.mk token statements, p2)

-- The three mutually recursive parser entry points, tied with fuel (a model
-- artifact; the source recursion is bounded by the token stream)
inductive ParseTask where
  | stmt
  | expr (prec : Precedence)
  | block

inductive ParseOut where
  | stmtOut (s : Option AllStatements)
  | exprOut (e : Option AllExpressions)
  | blockOut (b : BlockStatement)

def parseF : Nat → ParseTask → Parser → ParseOut × Parser
  | 0, task, p =>
      (match task with
       | .stmt => ParseOut.stmtOut none
       | .expr _ => ParseOut.exprOut none
       | .block => ParseOut.blockOut (BlockStatement.mk p.current_token []), p)
  | n + 1, task, p =>
      let pe : ParseExprFn := fun prec q =>
        match parseF n (ParseTask.expr prec) q with
        | (ParseOut.exprOut e, q') => (e, q')
        | (_, q') => (none, q')
      let ps : ParseStmtFn := fun q =>
        match parseF n ParseTask.stmt q with
        | (ParseOut.stmtOut s, q') => (s, q')
        | (_, q') => (none, q')
      let pb : ParseBlockFn := fun q =>
        match parseF n ParseTask.block q with
        | (ParseOut.blockOut b, q') => (b, q')
        | (_, q') => (BlockStatement.mk q.current_token [], q')
      match task with
      | .stmt =>
          let (s, p') := parse_statement_core pe pb p
          (ParseOut.stmtOut s, p')
      | .expr prec =>
          let (e, p') := parse_expression_core pe pb n prec p
          (ParseOut.exprOut e, p')
      | .block =>
          let (b, p') := parse_block_statement_core ps n p
          (ParseOut.blockOut b, p')

def parse_statement (fuel : Nat) (p : Parser) : Option AllStatements × Parser :=
  match parseF fuel ParseTask.stmt p with
  | (ParseOut.stmtOut s, p') => (s, p')
  | (_, p') => (none, p')

def parse_expression (fuel : Nat) (prec : Precedence) (p : Parser) :
    Option AllExpressions × Parser :=
  match parseF fuel (ParseTask.expr prec) p with
  | (ParseOut.exprOut e, p') => (e, p')
  | (_, p') => (none, p')

-- program.rs: Parser::parse_program
def parse_program_loop (fuel : Nat) :
    Nat → List AllStatements → Parser → List AllStatements × Parser
  | 0, statements, p => (statements, p)
  | n + 1, statements, p =>
      if ¬ p.current_token_is TokenType.Eof then
        let (stmtOpt, p1) := parse_statement fuel p
        let statements :=
          match stmtOpt with
          | some s => statements ++ [s]
          | none => statements
        parse_program_loop fuel n statements (p1.next_token)
      else (statements, p)

def parse_program (fuel : Nat) (p : Parser) : Program × Parser :=
  let (statements, p') := parse_program_loop fuel fuel [] p
  ({ statements := statements }, p')

-- End-to-end: text → tokens → Program (the pipeline of repl.rs /
-- execute_program, evaluation aside)
def parse_input (fuel : Nat) (input : String) : Program × Parser :=
  parse_program fuel (Parser.new (Lexer.new input.data))

-- ===================== Derived definitions used by the theorems =====================

-- A character that terminates the string-reading loop: the closing quote or
-- the NUL sentinel that read_char yields at the end of input.
def not_string_stop (c : Char) : Bool := !(c == '"' || c == NULL_CHAR)

/-
  The observable behaviour of the variadic `print` builtin
  (builtins.rs: print, eval.rs: eval_builtin_function_calls, Variadic arm):
  the arguments are bound as `arg_0, arg_1, …` into a fresh environment and
  printed in the order of Environment::all_vars, i.e. sorted by name.
  printOrder returns the arguments in the exact order print writes them.
-/
def printOrder (args : List AllObjects) : List AllObjects :=
  let (new_env, st') := Environment.new initialState
  let st'' := bind_variadic_args st' new_env args 0
  print_sequence st'' new_env

-- The synthesized variadic argument names in source (index) order
def synth_names (n : Nat) : List String :=
  (List.range n).map (fun i => "arg_" ++ toString i)

/-
  Concrete AST fixtures for the counterexamples and witnesses below.  The
  evaluator ignores every token except the literal of a StringLiteral, so
  the fixture tokens are the ones the parser would attach.
-/

def tokInt (n : Int) : Token := new_token TokenType.Int (toString n)

def intLit (n : Int) : AllExpressions := AllExpressions.IntegerLiteral (tokInt n) n

def boolLit (b : Bool) : AllExpressions :=
  AllExpressions.Boolean
    (new_token (if b then TokenType.True else TokenType.False) (toString b)) b

def identTok (s : String) : Token := new_token TokenType.Ident s

def identE (s : String) : AllExpressions := AllExpressions.Identifier ⟨identTok s, s⟩

def strLit (s : String) : AllExpressions :=
  AllExpressions.StringLiteral (new_token TokenType.String s)

def exprStmt (e : AllExpressions) : AllStatements :=
  AllStatements.Expression (identTok "stmt") (some e)

def letStmt (n : String) (e : AllExpressions) : AllStatements :=
  AllStatements.Let (new_token TokenType.Let "let") ⟨identTok n, n⟩ e

def infixE (l : AllExpressions) (op : String) (r : AllExpressions) : AllExpressions :=
  AllExpressions.InfixExpression (new_token TokenType.Plus op) (some l) op (some r)

def assignE (n : String) (e : AllExpressions) : AllExpressions :=
  AllExpressions.Assignment (identTok n) ⟨identTok n, n⟩ e

def minusPre (e : AllExpressions) : AllExpressions :=
  AllExpressions.PrefixExpression (new_token TokenType.Minus "-") "-" (some e)

def arrayLit (es : List AllExpressions) : AllExpressions :=
  AllExpressions.ArrayLiteral (new_token TokenType.Lbracket "[") es

def hashLit (ps : List (AllExpressions × AllExpressions)) : AllExpressions :=
  AllExpressions.HashLiteral (new_token TokenType.Lbrace "\x7b") ps

-- The error produced by evaluating `-true` (errors.rs: unknown_operator)
def minusBoolError : String := "unknown operator: -BOOLEAN"

-- C1 fixture: an array literal and a hash literal with an erroring element
def c1ArrayProg : List AllStatements := [exprStmt (arrayLit [minusPre (boolLit true)])]

def c1HashProg : List AllStatements :=
  [exprStmt (hashLit [(strLit "k", minusPre (boolLit true))])]

-- C3 fixture: let x = 1; x = -true;
def c3Prog : List AllStatements :=
  [letStmt "x" (intLit 1), exprStmt (assignE "x" (minusPre (boolLit true)))]

/-
  C5 fixture:
    let i = 0; let x = 0;
    while (i < 3) { i = i + 1; x = x + 1; let x = 100; }
    x
  With a fresh body scope per iteration (as the claim states) each
  iteration's `x = x + 1` would update the OUTER x, giving 3.  With the
  single scope the source creates, iteration 1's `let x = 100` shadows the
  outer x for iterations 2 and 3, giving 1.
-/
def c5WhileBody : BlockStatement :=
  BlockStatement.mk (new_token TokenType.Lbrace "\x7b")
    [ exprStmt (assignE "i" (infixE (identE "i") "+" (intLit 1)))
    , exprStmt (assignE "x" (infixE (identE "x") "+" (intLit 1)))
    , letStmt "x" (intLit 100) ]

def c5Prog : List AllStatements :=
  [ letStmt "i" (intLit 0)
  , letStmt "x" (intLit 0)
  , AllStatements.While (new_token TokenType.While "while")
      (infixE (identE "i") "<" (intLit 3)) c5WhileBody
  , exprStmt (identE "x") ]

-- C7 fixtures: null == null, and [1] == [1]
def c7NullProg : List AllStatements :=
  [exprStmt (infixE AllExpressions.NullLiteral "==" AllExpressions.NullLiteral)]

def c7ArrayProg : List AllStatements :=
  [exprStmt (infixE (arrayLit [intLit 1]) "==" (arrayLit [intLit 1]))]

-- C9 fixture: 1(2) — calling a non-function
def c9Prog : List AllStatements :=
  [exprStmt (AllExpressions.CallExpression (new_token TokenType.Lparen "(")
    (intLit 1) [intLit 2])]


/-- Argument bindings created by bind_variadic_args: names arg_i, arg_i+1, …
paired with the argument values, in source order. -/
def argPairs : List AllObjects → Nat → List (String × AllObjects)
  | [], _ => []
  | a :: rest, i => ("arg_" ++ toString i, a) :: argPairs rest (i + 1)

/-- The synthesized argument names arg_i, …, arg_i+n-1 in source order. -/
def namesList : Nat → Nat → List String
  | 0, _ => []
  | n + 1, i => ("arg_" ++ toString i) :: namesList n (i + 1)

-- C4 fixture: the two pairs of the hash literal \x7b1: 2, 2 - 1: 3\x7d as
-- parse_hash_literal keeps them.  Their key expressions differ, so neither
-- overwrites the other at parse time, but both keys evaluate to Integer 1.
-- The AST map is unordered, so theorems below treat this list up to
-- permutation.
def c4TwoPairs : List (AllExpressions × AllExpressions) :=
  [(intLit 1, intLit 2),
   (AllExpressions.InfixExpression (new_token TokenType.Minus "-")
     (some (intLit 2)) "-" (some (intLit 1)), intLit 3)]

-- ===================== Helper lemmas =====================

theorem get_bool_consts_eq (b : Bool) : get_bool_consts b = AllObjects.Boolean b := by
  cases b <;> rfl

theorem read_char_input (l : Lexer) : (read_char l).input = l.input := rfl

theorem read_char_rp (l : Lexer) : (read_char l).read_position = l.read_position + 1 := rfl

theorem read_char_pos (l : Lexer) : (read_char l).position = l.read_position := rfl

theorem read_char_ch_lt (l : Lexer) (h : l.read_position < l.input.length) :
    (read_char l).ch = l.input[l.read_position] := by
  show (if l.read_position ≥ l.input.length then NULL_CHAR
        else l.input.getD l.read_position NULL_CHAR) = l.input[l.read_position]
  rw [if_neg (by omega)]
  simp [List.getD_eq_getElem?_getD, List.getElem?_eq_getElem h]

theorem read_char_ch_ge (l : Lexer) (h : l.input.length ≤ l.read_position) :
    (read_char l).ch = NULL_CHAR := by
  show (if l.read_position ≥ l.input.length then NULL_CHAR
        else l.input.getD l.read_position NULL_CHAR) = NULL_CHAR
  rw [if_pos (by omega)]

theorem read_string_loop_succ (n : Nat) (l : Lexer) :
    read_string_loop (n + 1) l =
      if (read_char l).ch = '"' ∨ (read_char l).ch = NULL_CHAR then read_char l
      else read_string_loop n (read_char l) := rfl

-- The string-reading loop stops exactly at the first closing quote (or NUL
-- sentinel), leaving `position` there and the input untouched.
theorem read_string_loop_spec :
    ∀ (fuel : Nat) (l : Lexer),
      l.read_position ≤ l.input.length →
      l.input.length + 1 - l.read_position ≤ fuel →
      (read_string_loop fuel l).position =
          l.read_position + ((l.input.drop l.read_position).takeWhile not_string_stop).length
        ∧ (read_string_loop fuel l).input = l.input := by
  intro fuel
  induction fuel with
  | zero => intro l h1 h2; omega
  | succ n ih =>
    intro l h1 h2
    rw [read_string_loop_succ]
    by_cases hrp : l.read_position < l.input.length
    · have hdrop := List.drop_eq_getElem_cons hrp
      have hch := read_char_ch_lt l hrp
      by_cases hstop : l.input[l.read_position] = '"' ∨ l.input[l.read_position] = NULL_CHAR
      · rw [if_pos (by rw [hch]; exact hstop)]
        refine ⟨?_, read_char_input l⟩
        rw [read_char_pos, hdrop]
        have : not_string_stop l.input[l.read_position] = false := by
          rcases hstop with h | h <;> simp [not_string_stop, h]
        simp [List.takeWhile_cons, this]
      · rw [if_neg (by rw [hch]; exact hstop)]
        have h1' : (read_char l).read_position ≤ (read_char l).input.length := by
          rw [read_char_rp, read_char_input]; omega
        have h2' : (read_char l).input.length + 1 - (read_char l).read_position ≤ n := by
          rw [read_char_rp, read_char_input]; omega
        obtain ⟨ha, hb⟩ := ih (read_char l) h1' h2'
        refine ⟨?_, by rw [hb, read_char_input]⟩
        have hpass : not_string_stop l.input[l.read_position] = true := by
          push_neg at hstop
          simp [not_string_stop, hstop.1, hstop.2]
        calc (read_string_loop n (read_char l)).position
            = (read_char l).read_position +
                (((read_char l).input.drop (read_char l).read_position).takeWhile
                  not_string_stop).length := ha
          _ = l.read_position + 1 +
                ((l.input.drop (l.read_position + 1)).takeWhile not_string_stop).length := by
                rw [read_char_rp, read_char_input]
          _ = l.read_position +
                ((l.input.drop l.read_position).takeWhile not_string_stop).length := by
                rw [hdrop, List.takeWhile_cons, if_pos hpass]
                simp [List.length_cons]
                omega
    · have hch := read_char_ch_ge l (by omega)
      rw [if_pos (Or.inr hch)]
      have hdrop : l.input.drop l.read_position = [] := List.drop_eq_nil_of_le (by omega)
      rw [hdrop]
      exact ⟨by rw [read_char_pos]; simp, read_char_input l⟩

theorem skip_whitespace_id (fuel : Nat) (l : Lexer) (h : is_ascii_whitespace l.ch = false) :
    skip_whitespace_loop fuel l = l := by
  cases fuel with
  | zero => rfl
  | succ n => simp [skip_whitespace_loop, h]

-- At a lexer state whose current character is the double quote (and which
-- is not the very first read), next_token produces exactly the token of
-- read_string and advances past it.
theorem next_token_at_quote (l : Lexer) (hq : l.ch = '"') (hrp : l.read_position ≠ 0) :
    Lexer.next_token l =
      (new_token TokenType.String (read_string l).1, read_char (read_string l).2) := by
  unfold Lexer.next_token
  rw [if_neg hrp]
  simp only [skip_whitespace_id _ _ (by rw [hq]; decide), hq]
  simp

theorem takeWhile_congr_mem {p q : Char → Bool} :
    ∀ l : List Char, (∀ x ∈ l, p x = q x) → l.takeWhile p = l.takeWhile q := by
  intro l
  induction l with
  | nil => intro _; rfl
  | cons a as ih =>
      intro h
      simp only [List.takeWhile_cons, h a (List.mem_cons_self a as)]
      cases hqa : q a with
      | false => rfl
      | true => rw [ih (fun x hx => h x (List.mem_cons_of_mem a hx))]

-- read_string, started on the quote at index p, yields the text strictly
-- between the quote and the next stopping character.
theorem read_string_spec (cs : List Char) (p : Nat) (hp : p < cs.length) :
    (read_string ⟨cs, p, p + 1, cs[p]⟩).1 =
      String.mk ((cs.drop (p + 1)).takeWhile not_string_stop) := by
  have hspec := read_string_loop_spec (cs.length + 2 - (p + 1)) ⟨cs, p, p + 1, cs[p]⟩
    (by simp; omega) (by simp; omega)
  unfold read_string
  simp only at hspec ⊢
  rw [hspec.1, hspec.2]
  have harith : p + 1 + ((cs.drop (p + 1)).takeWhile not_string_stop).length - (p + 1)
      = ((cs.drop (p + 1)).takeWhile not_string_stop).length := by omega
  rw [harith]
  congr 1
  exact (List.prefix_iff_eq_take.mp (List.takeWhile_prefix _)).symm

-- ===================== Claim theorems =====================

/-- C8: for every input text (NUL-free, so that "end of input" is
unambiguous), a double quote starts a String token whose literal is the text
after the quote up to, and excluding, the next double quote; when no closing
quote follows, the literal runs to the end of input and the token is still
an ordinary String token (no error is surfaced). -/
theorem c8_string_token (cs : List Char) (p : Nat)
    (hp : p < cs.length) (hq : cs[p] = '"') (hnul : NULL_CHAR ∉ cs) :
    (Lexer.next_token ⟨cs, p, p + 1, cs[p]⟩).1 =
        new_token TokenType.String
          (String.mk ((cs.drop (p + 1)).takeWhile (fun c => c != '"')))
    ∧ ('"' ∉ cs.drop (p + 1) →
        (Lexer.next_token ⟨cs, p, p + 1, cs[p]⟩).1 =
          new_token TokenType.String (String.mk (cs.drop (p + 1)))) := by
  have hntq := next_token_at_quote ⟨cs, p, p + 1, cs[p]⟩ (by simpa using hq) (by simp)
  have hcongr : (cs.drop (p + 1)).takeWhile not_string_stop
      = (cs.drop (p + 1)).takeWhile (fun c => c != '"') := by
    apply takeWhile_congr_mem
    intro x hx
    have hxcs : x ∈ cs := List.mem_of_mem_drop hx
    have hxn : x ≠ NULL_CHAR := fun h => hnul (h ▸ hxcs)
    simp [not_string_stop, bne, beq_eq_false_iff_ne.mpr hxn]
  have hmain : (Lexer.next_token ⟨cs, p, p + 1, cs[p]⟩).1 =
      new_token TokenType.String
        (String.mk ((cs.drop (p + 1)).takeWhile (fun c => c != '"'))) := by
    rw [hntq]
    simp only
    rw [read_string_spec cs p hp, hcongr]
  refine ⟨hmain, fun hterm => ?_⟩
  rw [hmain]
  congr 2
  apply List.takeWhile_eq_self_iff.mpr
  intro x hx
  simp
  intro hxq
  exact hterm (hxq ▸ hx)

/-- C8 witness: the input `"a"b` at the opening quote yields the String
token `a`; the hypotheses of c8_string_token hold for it. -/
theorem c8_string_token_witness :
    (0 : Nat) < (['"', 'a', '"', 'b'] : List Char).length
    ∧ (['"', 'a', '"', 'b'] : List Char)[0] = '"'
    ∧ NULL_CHAR ∉ (['"', 'a', '"', 'b'] : List Char)
    ∧ (Lexer.next_token ⟨['"', 'a', '"', 'b'], 0, 1, '"'⟩).1 =
        new_token TokenType.String "a" :=
  ⟨by decide, by decide, by decide,
    by
      have h := (c8_string_token ['"', 'a', '"', 'b'] 0 (by decide) (by decide) (by decide)).1
      simpa using h⟩

/-- C1 counterexample: the claim says an Error value never sits inside an
Array or HashMap and that an erroring element makes the whole literal
evaluate to that Error.  Evaluating `[-true]` instead yields an Array whose
single element IS the Error, and evaluating a hash literal whose value
errors yields a HashMap containing the Error; neither result equals the
Error itself. -/
theorem c1_counterexample :
    (runProgram 9 c1ArrayProg).map Prod.fst = some (some (AllObjects.ArrayObj 0))
  ∧ (runProgram 9 c1ArrayProg).map (fun r => r.2.arrays)
      = some [[AllObjects.Error minusBoolError]]
  ∧ (runProgram 9 c1HashProg).map Prod.fst = some (some (AllObjects.HashMap 0))
  ∧ (runProgram 9 c1HashProg).map (fun r => r.2.hashes)
      = some [[(AllObjects.StringObj "k", AllObjects.Error minusBoolError)]]
  ∧ some (some (AllObjects.ArrayObj 0)) ≠ some (some (AllObjects.Error minusBoolError)) :=
  ⟨rfl, rfl, rfl, rfl, by simp⟩

/-- C1 amended: an Error produced by an array-literal element or by a
hash-literal key is stored inside the fresh container and the literal
evaluates to the container, not to the Error (eval_array_literal and
eval_hash_map skip the is_error check); an Error still never appears inside
a ReturnValue, because eval_return_statement returns the Error itself
instead of wrapping it. -/
theorem c1_amended :
    (∀ (ev : EvalFn) (rv : AllExpressions) (env : Nat) (st : St) (m : String) (st' : St),
      eval_return_statement ev rv env st
        ≠ some (some (AllObjects.ReturnValue (AllObjects.Error m)), st'))
  ∧ (∀ (ev : EvalFn) (e : AllExpressions) (env : Nat) (st : St) (m : String) (st₁ : St),
      ev (AllNodes.Expressions e) env st = some (some (AllObjects.Error m), st₁) →
      eval_array_literal ev [e] env st
        = some (some (AllObjects.ArrayObj st₁.arrays.length),
            { st₁ with arrays := st₁.arrays ++ [[AllObjects.Error m]] }))
  ∧ (∀ (ev : EvalFn) (eqFuel : Nat) (ke ve : AllExpressions) (env : Nat) (st : St)
      (m : String) (st₁ : St) (v : AllObjects) (st₂ : St),
      ev (AllNodes.Expressions ke) env st = some (some (AllObjects.Error m), st₁) →
      ev (AllNodes.Expressions ve) env st₁ = some (some v, st₂) →
      eval_hash_map ev eqFuel [(ke, ve)] env st
        = some (some (AllObjects.HashMap st₂.hashes.length),
            { st₂ with hashes := st₂.hashes ++ [[(AllObjects.Error m, v)]] })) := by
  refine ⟨?_, ?_, ?_⟩
  · intro ev rv env st m st' heq
    unfold eval_return_statement at heq
    cases hev : ev (AllNodes.Expressions rv) env st with
    | none => rw [hev] at heq; simp at heq
    | some r =>
      obtain ⟨val, st₁⟩ := r
      rw [hev] at heq
      cases val with
      | none => simp at heq
      | some v =>
        cases hverr : v.is_error with
        | true =>
            simp [hverr] at heq
            rw [heq.1] at hverr
            simp [AllObjects.is_error, AllObjects.object_type] at hverr
        | false =>
            simp [hverr] at heq
            rw [heq.1] at hverr
            simp [AllObjects.is_error, AllObjects.object_type] at hverr
  · intro ev e env st m st₁ hev
    simp [eval_array_literal, eval_array_elems, hev, St.pushArray]
  · intro ev eqFuel ke ve env st m st₁ v st₂ hk hv
    simp [eval_hash_map, eval_hash_pairs, hk, hv, hashInsert, St.pushHash]

/-- C1 amended witness: the general parts of c1_amended applied to the
concrete element `-true` in the root environment. -/
theorem c1_amended_witness :
    evalF 5 (AllNodes.Expressions (minusPre (boolLit true))) 0 initialState
        = some (some (AllObjects.Error minusBoolError), initialState)
    ∧ eval_array_literal (evalF 5) [minusPre (boolLit true)] 0 initialState
        = some (some (AllObjects.ArrayObj 0),
            { initialState with arrays := [[AllObjects.Error minusBoolError]] })
    ∧ eval_hash_map (evalF 5) 5 [(minusPre (boolLit true), strLit "k")] 0 initialState
        = some (some (AllObjects.HashMap 0),
            { initialState with
                hashes := [[(AllObjects.Error minusBoolError, AllObjects.StringObj "k")]] }) := by
  refine ⟨rfl, ?_, ?_⟩
  · exact c1_amended.2.1 (evalF 5) (minusPre (boolLit true)) 0 initialState
      minusBoolError initialState rfl
  · exact c1_amended.2.2 (evalF 5) 5 (minusPre (boolLit true)) (strLit "k") 0 initialState
      minusBoolError initialState (AllObjects.StringObj "k") initialState rfl rfl

theorem envReplaceF_some_value :
    ∀ (fuel : Nat) (st : St) (id : Nat) (name : String) (value r : AllObjects) (st₂ : St),
      envReplaceF st fuel id name value = (some r, st₂) → r = value := by
  intro fuel
  induction fuel with
  | zero => intro st id name value r st₂ h; simp [envReplaceF] at h
  | succ n ih =>
    intro st id name value r st₂ h
    unfold envReplaceF at h
    split at h
    · simp at h
    · split at h
      · simp at h
        exact h.1.symm
      · split at h
        · exact ih st _ name value r st₂ h
        · simp at h

/-- C3 counterexample: after `let x = 1; x = -true;` the program yields the
Error (as the claim says), but the environment is NOT left unchanged: the
Error has been stored into `x`, which no longer holds Integer 1. -/
theorem c3_counterexample :
    (runProgram 9 c3Prog).map Prod.fst = some (some (AllObjects.Error minusBoolError))
  ∧ (runProgram 9 c3Prog).map (fun r => envGet r.2 0 "x")
      = some (some (AllObjects.Error minusBoolError))
  ∧ some (some (AllObjects.Error minusBoolError)) ≠ some (some (AllObjects.Integer 1)) :=
  ⟨rfl, rfl, by simp⟩

/-- C3 amended: when the right-hand side of an assignment evaluates to an
Error, eval_assignment_expression passes the Error to Environment::replace
with no is_error check; if the variable exists in the scope chain the Error
is written into it and the assignment yields that Error (an absent variable
still gives "identifier not found"). -/
theorem c3_amended :
    ∀ (ev : EvalFn) (ident : Identifier) (value : AllExpressions) (env : Nat) (st : St)
      (m : String) (st₁ : St),
      ev (AllNodes.Expressions value) env st = some (some (AllObjects.Error m), st₁) →
      (eval_assignment_expression ev ident value env st =
        (match envReplace st₁ env ident.value (AllObjects.Error m) with
         | (some v, st₂) => some (some v, st₂)
         | (none, st₂) => some (some (identifier_not_found ident.value), st₂)))
      ∧ (∀ (r : AllObjects) (st₂ : St),
          envReplace st₁ env ident.value (AllObjects.Error m) = (some r, st₂) →
          eval_assignment_expression ev ident value env st
            = some (some (AllObjects.Error m), st₂)) := by
  intro ev ident value env st m st₁ hev
  constructor
  · simp [eval_assignment_expression, hev]
  · intro r st₂ hrep
    have hr : r = AllObjects.Error m := envReplaceF_some_value _ _ _ _ _ _ _ hrep
    simp [eval_assignment_expression, hev, hrep, hr]

/-- C3 amended witness: in an environment where x holds Integer 1,
assigning `-true` to x stores the Error and yields it. -/
theorem c3_amended_witness :
    evalF 5 (AllNodes.Expressions (minusPre (boolLit true))) 0
        { envs := [{ store := [("x", AllObjects.Integer 1)], outer := none }],
          arrays := [], hashes := [], fn_counter := 0 }
      = some (some (AllObjects.Error minusBoolError),
          { envs := [{ store := [("x", AllObjects.Integer 1)], outer := none }],
            arrays := [], hashes := [], fn_counter := 0 })
    ∧ eval_assignment_expression (evalF 5) ⟨identTok "x", "x"⟩ (minusPre (boolLit true)) 0
        { envs := [{ store := [("x", AllObjects.Integer 1)], outer := none }],
          arrays := [], hashes := [], fn_counter := 0 }
      = some (some (AllObjects.Error minusBoolError),
          { envs := [{ store := [("x", AllObjects.Error minusBoolError)], outer := none }],
            arrays := [], hashes := [], fn_counter := 0 }) := by
  refine ⟨rfl, ?_⟩
  exact (c3_amended (evalF 5) ⟨identTok "x", "x"⟩ (minusPre (boolLit true)) 0
      { envs := [{ store := [("x", AllObjects.Integer 1)], outer := none }],
        arrays := [], hashes := [], fn_counter := 0 }
      minusBoolError
      { envs := [{ store := [("x", AllObjects.Integer 1)], outer := none }],
        arrays := [], hashes := [], fn_counter := 0 } rfl).2
    (AllObjects.Error minusBoolError)
    { envs := [{ store := [("x", AllObjects.Error minusBoolError)], outer := none }],
      arrays := [], hashes := [], fn_counter := 0 } rfl

/-- C5 counterexample: in
`let i = 0; let x = 0; while (i < 3) { i = i + 1; x = x + 1; let x = 100; } x`
the claim's fresh-scope-per-iteration semantics would make every
`x = x + 1` hit the outer x, giving 3.  The source reuses ONE enclosed
scope: after iteration 1's `let x = 100`, the binding is still visible at
the start of iterations 2 and 3, so the outer x ends at 1.  The final heap
shows the single loop frame still holding the let binding. -/
theorem c5_counterexample :
    (runProgram 30 c5Prog).map Prod.fst = some (some (AllObjects.Integer 1))
  ∧ (runProgram 30 c5Prog).map (fun r => r.2.envs.length) = some 2
  ∧ (runProgram 30 c5Prog).map (fun r => (r.2.getFrame 1).map Frame.store)
      = some (some [("x", AllObjects.Integer 100)])
  ∧ some (some (AllObjects.Integer 1)) ≠ some (some (AllObjects.Integer 3)) :=
  ⟨rfl, rfl, rfl, by simp⟩

/-- C5 amended: eval_while_statement creates ONE fresh enclosed scope when
the loop is entered and evaluates every iteration of the body in that same
scope, so a let binding from one iteration is still visible at the next
(the counterexample program therefore yields 1, not 3); when the condition
is falsy (and not an Error) the statement terminates with Null. -/
theorem c5_amended :
    (∀ (ev : EvalFn) (n : Nat) (cond : AllExpressions) (body : BlockStatement)
      (env : Nat) (st : St) (c : AllObjects) (st₁ : St),
      ev (AllNodes.Expressions cond) env st = some (some c, st₁) →
      c.is_error = false →
      is_truthy c = false →
      eval_while_statement ev (n + 1) cond body env st
        = some (some NULL, (Environment.new_enclosed_environment env st₁).2))
  ∧ (runProgram 30 c5Prog).map Prod.fst = some (some (AllObjects.Integer 1))
  ∧ (runProgram 30 c5Prog).map (fun r => (r.2.getFrame 1).map Frame.store)
      = some (some [("x", AllObjects.Integer 100)]) := by
  refine ⟨?_, rfl, rfl⟩
  intro ev n cond body env st c st₁ hev herr htr
  simp [eval_while_statement, hev, herr, while_loop, htr]

/-- C5 amended witness: a while statement whose condition is `false`
terminates immediately with Null, in the one freshly enclosed scope. -/
theorem c5_amended_witness :
    evalF 5 (AllNodes.Expressions (boolLit false)) 0 initialState
        = some (some FALSE, initialState)
    ∧ (AllObjects.Boolean false).is_error = false
    ∧ is_truthy (AllObjects.Boolean false) = false
    ∧ eval_while_statement (evalF 5) 5 (boolLit false)
        (BlockStatement.mk (identTok "b") []) 0 initialState
      = some (some NULL, (Environment.new_enclosed_environment 0 initialState).2) := by
  refine ⟨rfl, rfl, rfl, ?_⟩
  have h := c5_amended.1 (evalF 5) 4 (boolLit false)
    (BlockStatement.mk (identTok "b") []) 0 initialState FALSE initialState rfl rfl rfl
  exact h

/-- C9: a call whose callee evaluates (without Error) to a value that is
neither a user-defined Function nor a BuiltinFunction, with arguments that
evaluate without Error, makes eval_call_expression fall through every
branch and return Rust `None` — no value at all, not an Error and not
Null. -/
theorem c9_call_non_function (ev : EvalFn) (eqFuel : Nat) (fexpr : AllExpressions)
    (argExprs : List AllExpressions) (env : Nat) (st : St) (f : AllObjects) (st₁ : St)
    (args : List AllObjects) (st₂ : St)
    (hf : ev (AllNodes.Expressions fexpr) env st = some (some f, st₁))
    (hft : f.object_type ≠ ObjectType.Error)
    (hfn : f.object_type ≠ ObjectType.Function)
    (hargs : eval_expressions ev argExprs env st₁ = some (some args, st₂))
    (hguard : (match args with | [a] => a.is_error | _ => false) = false) :
    eval_call_expression ev eqFuel fexpr argExprs env st = some (none, st₂) := by
  have hferr : f.is_error = false := by
    simp [AllObjects.is_error]
    exact hft
  unfold eval_call_expression
  rw [hf]
  simp only [hferr, Bool.false_eq_true, if_false]
  rw [hargs]
  cases args with
  | nil => cases f <;> simp_all [AllObjects.object_type]
  | cons a rest =>
      cases rest with
      | nil =>
          have ha : a.is_error = false := by simpa using hguard
          cases f <;> simp_all [AllObjects.object_type]
      | cons b rest2 => cases f <;> simp_all [AllObjects.object_type]

/-- C9 witness: `1(2)` — the callee Integer 1 is neither Function variant;
the call yields Rust None, and the whole program's value channel is None. -/
theorem c9_call_non_function_witness :
    evalF 5 (AllNodes.Expressions (intLit 1)) 0 initialState
        = some (some (AllObjects.Integer 1), initialState)
    ∧ (AllObjects.Integer 1).object_type ≠ ObjectType.Error
    ∧ (AllObjects.Integer 1).object_type ≠ ObjectType.Function
    ∧ eval_expressions (evalF 5) [intLit 2] 0 initialState
        = some (some [AllObjects.Integer 2], initialState)
    ∧ eval_call_expression (evalF 5) 5 (intLit 1) [intLit 2] 0 initialState
        = some (none, initialState)
    ∧ (runProgram 9 c9Prog).map Prod.fst = some none := by
  refine ⟨rfl, by decide, by decide, rfl, ?_, rfl⟩
  exact c9_call_non_function (evalF 5) 5 (intLit 1) [intLit 2] 0 initialState
    (AllObjects.Integer 1) initialState [AllObjects.Integer 2] initialState
    rfl (by decide) (by decide) rfl rfl

/-- C7 counterexample: the claim says `==` follows the equality rule for
every pair of same-typed operands, in particular `null == null` is Boolean
true and Array `==` compares element sequences.  Evaluating `null == null`
yields the Error "unknown operator: NULL == NULL", and `[1] == [1]` yields
the Error "unknown operator: ARRAY == ARRAY". -/
theorem c7_counterexample :
    (runProgram 9 c7NullProg).map Prod.fst
        = some (some (AllObjects.Error "unknown operator: NULL == NULL"))
  ∧ (runProgram 9 c7ArrayProg).map Prod.fst
      = some (some (AllObjects.Error "unknown operator: ARRAY == ARRAY"))
  ∧ some (some (AllObjects.Error "unknown operator: NULL == NULL"))
      ≠ some (some (AllObjects.Boolean true)) :=
  ⟨rfl, rfl, by simp⟩

/-- C7 amended: the infix `==`/`!=` follow the stated equality rule only
for Integer, Boolean and String operand pairs; for same-typed Null, Array
and HashMap operands eval_infix_expression falls through its is_integer /
is_boolean / is_string ladder and yields an "unknown operator" Error (the
stated full equality rule is the PartialEq used for HashMap keys, not the
infix operator). -/
theorem c7_amended :
    (∀ a b : Int,
        eval_infix_operands (AllObjects.Integer a) "==" (AllObjects.Integer b)
            = AllObjects.Boolean (a == b)
      ∧ eval_infix_operands (AllObjects.Integer a) "!=" (AllObjects.Integer b)
            = AllObjects.Boolean (a != b))
  ∧ (∀ a b : Bool,
        eval_infix_operands (AllObjects.Boolean a) "==" (AllObjects.Boolean b)
            = AllObjects.Boolean (a == b)
      ∧ eval_infix_operands (AllObjects.Boolean a) "!=" (AllObjects.Boolean b)
            = AllObjects.Boolean (a != b))
  ∧ (∀ s t : String,
        eval_infix_operands (AllObjects.StringObj s) "==" (AllObjects.StringObj t)
            = AllObjects.Boolean (s == t)
      ∧ eval_infix_operands (AllObjects.StringObj s) "!=" (AllObjects.StringObj t)
            = AllObjects.Boolean (s != t))
  ∧ eval_infix_operands AllObjects.Null "==" AllObjects.Null
        = AllObjects.Error "unknown operator: NULL == NULL"
  ∧ (∀ r1 r2 : Nat,
        eval_infix_operands (AllObjects.ArrayObj r1) "==" (AllObjects.ArrayObj r2)
          = AllObjects.Error "unknown operator: ARRAY == ARRAY")
  ∧ (∀ r1 r2 : Nat,
        eval_infix_operands (AllObjects.HashMap r1) "==" (AllObjects.HashMap r2)
          = AllObjects.Error "unknown operator: HASH_MAP == HASH_MAP") := by
  refine ⟨fun a b => ⟨?_, ?_⟩, fun a b => ⟨?_, ?_⟩, fun s t => ⟨?_, ?_⟩, rfl,
    fun r1 r2 => rfl, fun r1 r2 => rfl⟩
  · show get_bool_consts (a == b) = AllObjects.Boolean (a == b)
    exact get_bool_consts_eq (a == b)
  · show get_bool_consts (a != b) = AllObjects.Boolean (a != b)
    exact get_bool_consts_eq (a != b)
  · show get_bool_consts (a == b) = AllObjects.Boolean (a == b)
    exact get_bool_consts_eq (a == b)
  · show get_bool_consts (a != b) = AllObjects.Boolean (a != b)
    exact get_bool_consts_eq (a != b)
  · rfl
  · rfl

/-- C2: a ReturnValue produced by a statement stops an enclosing Block and
is returned without unwrapping; eval_program unwraps it to the inner value
at top level; eval_user_defined_function_call unwraps the ReturnValue its
body's Block produced. -/
theorem c2_return_value_propagation (ev : EvalFn) (s : AllStatements)
    (rest : List AllStatements) (tok : Token) (env : Nat) (st : St) (v : AllObjects)
    (st₁ : St) (parameters : List Identifier) (body : BlockStatement) (fenv : Nat)
    (args : List AllObjects) (st₂ : St) (w : AllObjects) (st₃ : St)
    (h1 : ev (AllNodes.Statements s) env st
        = some (some (AllObjects.ReturnValue v), st₁))
    (hlen : parameters.length = args.length)
    (h2 : eval_block_statement ev body st₂.envs.length
        (bind_params { st₂ with envs := st₂.envs ++ [{ store := [], outer := some fenv }] }
          st₂.envs.length parameters args)
        = some (some (AllObjects.ReturnValue w), st₃)) :
    eval_program ev (s :: rest) env st = some (some v, st₁)
  ∧ eval_block_statement ev (BlockStatement.mk tok (s :: rest)) env st
      = some (some (AllObjects.ReturnValue v), st₁)
  ∧ eval_user_defined_function_call ev parameters body fenv args st₂
      = some (some w, st₃) := by
  refine ⟨?_, ?_, ?_⟩
  · simp [eval_program, eval_program_loop, h1]
  · simp [eval_block_statement, eval_block_loop, BlockStatement.statements, h1]
  · simp only [eval_user_defined_function_call, Environment.new_enclosed_environment]
    rw [if_neg (by omega)]
    rw [h2]

/-- C2 witness: a return statement at top level unwraps to its value; a
function body consisting of `return 5` makes the call yield 5. -/
theorem c2_return_value_propagation_witness :
    evalF 5 (AllNodes.Statements (AllStatements.Return (new_token TokenType.Return "return")
        (intLit 7))) 0 initialState
      = some (some (AllObjects.ReturnValue (AllObjects.Integer 7)), initialState)
  ∧ ([] : List Identifier).length = ([] : List AllObjects).length
  ∧ eval_block_statement (evalF 5)
      (BlockStatement.mk (identTok "b")
        [AllStatements.Return (new_token TokenType.Return "return") (intLit 5)])
      initialState.envs.length
      (bind_params
        { initialState with envs := initialState.envs ++ [{ store := [], outer := some 0 }] }
        initialState.envs.length [] [])
      = some (some (AllObjects.ReturnValue (AllObjects.Integer 5)),
          { initialState with envs := initialState.envs ++ [{ store := [], outer := some 0 }] })
  ∧ eval_program (evalF 5)
      [AllStatements.Return (new_token TokenType.Return "return") (intLit 7)] 0 initialState
      = some (some (AllObjects.Integer 7), initialState)
  ∧ eval_user_defined_function_call (evalF 5) []
      (BlockStatement.mk (identTok "b")
        [AllStatements.Return (new_token TokenType.Return "return") (intLit 5)])
      0 [] initialState
      = some (some (AllObjects.Integer 5),
          { initialState with envs := initialState.envs ++ [{ store := [], outer := some 0 }] }) := by
  have h := c2_return_value_propagation (evalF 5)
    (AllStatements.Return (new_token TokenType.Return "return") (intLit 7)) []
    (identTok "b") 0 initialState (AllObjects.Integer 7) initialState []
    (BlockStatement.mk (identTok "b")
      [AllStatements.Return (new_token TokenType.Return "return") (intLit 5)])
    0 [] initialState (AllObjects.Integer 5)
    { initialState with envs := initialState.envs ++ [{ store := [], outer := some 0 }] }
    rfl rfl rfl
  exact ⟨rfl, rfl, rfl, h.1, h.2.2⟩

/-- C10: the parser's prefix table maps Plus to parse_prefix_expression, so
`+e` is accepted (`+5` parses with no errors as a PrefixExpression); at
evaluation, an operator that is neither `!` nor `-` falls through to Null,
so `+e` yields Null whenever the operand evaluates without Error, and an
Error from the operand still propagates. -/
theorem c10_plus_prefix :
    prefix_parse_function TokenType.Plus = some PrefixFn.parsePrefixExpression
  ∧ (parse_input 20 "+5").1.statements
      = [AllStatements.Expression (new_token TokenType.Plus "+") (some
          (AllExpressions.PrefixExpression (new_token TokenType.Plus "+") "+"
            (some (AllExpressions.IntegerLiteral (new_token TokenType.Int "5") 5))))]
  ∧ (parse_input 20 "+5").2.errors = []
  ∧ (∀ (ev : EvalFn) (r : AllExpressions) (env : Nat) (st : St) (v : AllObjects) (st₁ : St),
      ev (AllNodes.Expressions r) env st = some (some v, st₁) →
      v.is_error = false →
      eval_prefix_expression ev "+" (some r) env st = some (some NULL, st₁))
  ∧ (∀ (ev : EvalFn) (r : AllExpressions) (env : Nat) (st : St) (v : AllObjects) (st₁ : St),
      ev (AllNodes.Expressions r) env st = some (some v, st₁) →
      v.is_error = true →
      eval_prefix_expression ev "+" (some r) env st = some (some v, st₁))
  ∧ (runProgram 20 (parse_input 20 "+5").1.statements).map Prod.fst = some (some NULL) := by
  refine ⟨rfl, rfl, rfl, ?_, ?_, rfl⟩
  · intro ev r env st v st₁ hev herr
    simp [eval_prefix_expression, hev, herr]
  · intro ev r env st v st₁ hev herr
    simp [eval_prefix_expression, hev, herr]

/-- C10 witness: `+3` with a non-error operand yields Null; `+(-true)` with
an erroring operand propagates the Error. -/
theorem c10_plus_prefix_witness :
    evalF 5 (AllNodes.Expressions (intLit 3)) 0 initialState
        = some (some (AllObjects.Integer 3), initialState)
    ∧ (AllObjects.Integer 3).is_error = false
    ∧ eval_prefix_expression (evalF 5) "+" (some (intLit 3)) 0 initialState
        = some (some NULL, initialState)
    ∧ evalF 5 (AllNodes.Expressions (minusPre (boolLit true))) 0 initialState
        = some (some (AllObjects.Error minusBoolError), initialState)
    ∧ (AllObjects.Error minusBoolError).is_error = true
    ∧ eval_prefix_expression (evalF 5) "+" (some (minusPre (boolLit true))) 0 initialState
        = some (some (AllObjects.Error minusBoolError), initialState) := by
  refine ⟨rfl, rfl, ?_, rfl, rfl, ?_⟩
  · exact c10_plus_prefix.2.2.2.1 (evalF 5) (intLit 3) 0 initialState
      (AllObjects.Integer 3) initialState rfl rfl
  · exact c10_plus_prefix.2.2.2.2.1 (evalF 5) (minusPre (boolLit true)) 0 initialState
      (AllObjects.Error minusBoolError) initialState rfl rfl

/-- C6 counterexample: with eleven arguments the variadic names sort
lexicographically as arg_0, arg_1, arg_10, arg_2, …, so print emits the
eleventh argument third instead of last — not the ascending index order
the claim states for eleven or more arguments. -/
theorem c6_counterexample :
    sortStrings (synth_names 11)
        = ["arg_0", "arg_1", "arg_10", "arg_2", "arg_3", "arg_4", "arg_5", "arg_6",
           "arg_7", "arg_8", "arg_9"]
  ∧ sortStrings (synth_names 11) ≠ synth_names 11
  ∧ printOrder
        [AllObjects.Integer 0, AllObjects.Integer 1, AllObjects.Integer 2,
         AllObjects.Integer 3, AllObjects.Integer 4, AllObjects.Integer 5,
         AllObjects.Integer 6, AllObjects.Integer 7, AllObjects.Integer 8,
         AllObjects.Integer 9, AllObjects.Integer 10]
      = [AllObjects.Integer 0, AllObjects.Integer 1, AllObjects.Integer 10,
         AllObjects.Integer 2, AllObjects.Integer 3, AllObjects.Integer 4,
         AllObjects.Integer 5, AllObjects.Integer 6, AllObjects.Integer 7,
         AllObjects.Integer 8, AllObjects.Integer 9]
  ∧ (printOrder
        [AllObjects.Integer 0, AllObjects.Integer 1, AllObjects.Integer 2,
         AllObjects.Integer 3, AllObjects.Integer 4, AllObjects.Integer 5,
         AllObjects.Integer 6, AllObjects.Integer 7, AllObjects.Integer 8,
         AllObjects.Integer 9, AllObjects.Integer 10]).get? 2
      = some (AllObjects.Integer 10) :=
  ⟨rfl, by decide, rfl, rfl⟩


theorem arg_name_ne_fin : ∀ j k : Fin 11, j ≠ k →
    ("arg_" ++ toString j.val) ≠ ("arg_" ++ toString k.val) := by decide

theorem arg_name_ne (j k : Nat) (hj : j < 11) (hk : k < 11) (hne : j ≠ k) :
    ("arg_" ++ toString j) ≠ ("arg_" ++ toString k) :=
  arg_name_ne_fin ⟨j, hj⟩ ⟨k, hk⟩ (by simpa [Fin.ext_iff] using hne)

theorem storeInsert_fresh :
    ∀ (s : List (String × AllObjects)) (k : String) (v : AllObjects),
      (∀ kv ∈ s, kv.1 ≠ k) → storeInsert s k v = s ++ [(k, v)] := by
  intro s k v h
  induction s with
  | nil => rfl
  | cons kv rest ih =>
      obtain ⟨k0, v0⟩ := kv
      have hne : k0 ≠ k := h (k0, v0) (List.mem_cons_self _ _)
      simp only [storeInsert, if_neg hne, List.cons_append]
      rw [ih (fun kv hkv => h kv (List.mem_cons_of_mem _ hkv))]

theorem bind_store_spec :
    ∀ (args : List AllObjects) (i : Nat) (s : List (String × AllObjects)),
      (∀ kv ∈ s, ∃ j, j < i ∧ kv.1 = "arg_" ++ toString j) →
      i + args.length ≤ 11 →
      bind_variadic_args
        { envs := [{ store := [], outer := none }, { store := s, outer := none }],
          arrays := [], hashes := [], fn_counter := 0 } 1 args i
        = { envs := [{ store := [], outer := none },
              { store := s ++ argPairs args i, outer := none }],
            arrays := [], hashes := [], fn_counter := 0 } := by
  intro args
  induction args with
  | nil => intro i s _ _; simp [bind_variadic_args, argPairs]
  | cons a rest ih =>
      intro i s hkeys hbound
      have hil : i < 11 := by simp [List.length_cons] at hbound; omega
      have hfresh : ∀ kv ∈ s, kv.1 ≠ "arg_" ++ toString i := by
        intro kv hkv
        obtain ⟨j, hj, hkj⟩ := hkeys kv hkv
        rw [hkj]
        exact arg_name_ne j i (by omega) hil (by omega)
      have hstep : bind_variadic_args
          { envs := [{ store := [], outer := none }, { store := s, outer := none }],
            arrays := [], hashes := [], fn_counter := 0 } 1 (a :: rest) i
          = bind_variadic_args
            { envs := [{ store := [], outer := none },
                { store := storeInsert s ("arg_" ++ toString i) a, outer := none }],
              arrays := [], hashes := [], fn_counter := 0 } 1 rest (i + 1) := rfl
      rw [hstep, storeInsert_fresh s _ a hfresh]
      rw [ih (i + 1) (s ++ [("arg_" ++ toString i, a)])
        (by
          intro kv hkv
          rcases List.mem_append.mp hkv with h | h
          · obtain ⟨j, hj, hkj⟩ := hkeys kv h
            exact ⟨j, by omega, hkj⟩
          · simp at h
            exact ⟨i, by omega, by rw [h]⟩)
        (by simp [List.length_cons] at hbound ⊢; omega)]
      simp [argPairs, List.append_assoc]

theorem storeKeys_argPairs : ∀ (args : List AllObjects) (i : Nat),
    storeKeys (argPairs args i) = namesList args.length i := by
  intro args
  induction args with
  | nil => intro i; rfl
  | cons a rest ih =>
      intro i
      simp only [argPairs, List.length_cons, namesList, storeKeys, List.map_cons]
      exact congrArg (List.cons ("arg_" ++ toString i)) (ih (i + 1))

theorem sortStrings_of_sorted :
    ∀ xs : List String, List.Pairwise (fun a b => string_lt b a = false) xs →
      sortStrings xs = xs := by
  intro xs
  induction xs with
  | nil => intro _; rfl
  | cons x rest ih =>
      intro h
      have hrest := (List.pairwise_cons.mp h).2
      have hx := (List.pairwise_cons.mp h).1
      simp only [sortStrings, ih hrest]
      cases rest with
      | nil => rfl
      | cons y ys =>
          have : string_lt y x = false := hx y (List.mem_cons_self _ _)
          simp [insertSorted, this]

theorem namesList_mem : ∀ (n i : Nat) (nm : String),
    nm ∈ namesList n i → ∃ m, i ≤ m ∧ m < i + n ∧ nm = "arg_" ++ toString m := by
  intro n
  induction n with
  | zero => intro i nm h; simp [namesList] at h
  | succ k ih =>
      intro i nm h
      simp only [namesList, List.mem_cons] at h
      rcases h with h | h
      · exact ⟨i, by omega, by omega, h⟩
      · obtain ⟨m, hm1, hm2, hm3⟩ := ih (i + 1) nm h
        exact ⟨m, by omega, by omega, hm3⟩

theorem envGet_two_frame (s : List (String × AllObjects)) (nm : String) :
    envGet
      { envs := [{ store := [], outer := none }, { store := s, outer := none }],
        arrays := [], hashes := [], fn_counter := 0 } 1 nm = storeGet s nm := by
  show (match storeGet s nm with
        | some v => some v
        | none => none) = storeGet s nm
  cases storeGet s nm <;> rfl

theorem filterMap_lookup :
    ∀ (args : List AllObjects) (i : Nat), i + args.length ≤ 11 →
      (namesList args.length i).filterMap (fun nm => storeGet (argPairs args i) nm)
        = args := by
  intro args
  induction args with
  | nil => intro i _; rfl
  | cons a rest ih =>
      intro i hbound
      have hil : i < 11 := by simp [List.length_cons] at hbound; omega
      simp only [List.length_cons, namesList, argPairs]
      rw [List.filterMap_cons]
      have hhead : storeGet (("arg_" ++ toString i, a) :: argPairs rest (i + 1))
          ("arg_" ++ toString i) = some a := by
        simp [storeGet]
      rw [hhead]
      have hskip : (namesList rest.length (i + 1)).filterMap
          (fun nm => storeGet (("arg_" ++ toString i, a) :: argPairs rest (i + 1)) nm)
          = (namesList rest.length (i + 1)).filterMap
            (fun nm => storeGet (argPairs rest (i + 1)) nm) := by
        apply List.filterMap_congr
        intro nm hnm
        obtain ⟨m, hm1, hm2, hm3⟩ := namesList_mem rest.length (i + 1) nm hnm
        have hmb : m < 11 := by simp [List.length_cons] at hbound; omega
        have : ("arg_" ++ toString i) ≠ nm := by
          rw [hm3]
          exact arg_name_ne i m hil hmb (by omega)
        simp [storeGet, this]
      rw [hskip, ih (i + 1) (by simp [List.length_cons] at hbound ⊢; omega)]

theorem printOrder_spec (args : List AllObjects) (hbound : args.length ≤ 11) :
    printOrder args
      = (sortStrings (namesList args.length 0)).filterMap
          (fun nm => storeGet (argPairs args 0) nm) := by
  show print_sequence
      (bind_variadic_args
        { envs := [{ store := [], outer := none }, { store := [], outer := none }],
          arrays := [], hashes := [], fn_counter := 0 } 1 args 0) 1 = _
  rw [bind_store_spec args 0 [] (by intro kv h; simp at h) (by omega)]
  show (sortStrings (storeKeys ([] ++ argPairs args 0))).filterMap
      (fun nm =>
        envGet
          { envs := [{ store := [], outer := none },
              { store := [] ++ argPairs args 0, outer := none }],
            arrays := [], hashes := [], fn_counter := 0 } 1 nm) = _
  rw [List.nil_append, storeKeys_argPairs]
  apply List.filterMap_congr
  intro nm _
  exact envGet_two_frame (argPairs args 0) nm

theorem namesList_sorted_le10 : ∀ n : Nat, n ≤ 10 →
    List.Pairwise (fun a b => string_lt b a = false) (namesList n 0) := by
  intro n h
  match n with
  | 0 => decide
  | 1 => decide
  | 2 => decide
  | 3 => decide
  | 4 => decide
  | 5 => decide
  | 6 => decide
  | 7 => decide
  | 8 => decide
  | 9 => decide
  | 10 => decide
  | m + 11 => omega

/-- C6 amended: print emits the variadic arguments in the lexicographic
order of the synthesized names arg_0, arg_1, …; that coincides with source
order for any number of arguments up to ten, but with eleven arguments the
eleventh is printed third (arg_10 sorts between arg_1 and arg_2). -/
theorem c6_amended :
    (∀ args : List AllObjects, args.length ≤ 10 → printOrder args = args)
  ∧ (∀ a0 a1 a2 a3 a4 a5 a6 a7 a8 a9 a10 : AllObjects,
      printOrder [a0, a1, a2, a3, a4, a5, a6, a7, a8, a9, a10]
        = [a0, a1, a10, a2, a3, a4, a5, a6, a7, a8, a9]) := by
  constructor
  · intro args h
    rw [printOrder_spec args (by omega),
      sortStrings_of_sorted _ (namesList_sorted_le10 args.length h),
      filterMap_lookup args 0 (by omega)]
  · intro a0 a1 a2 a3 a4 a5 a6 a7 a8 a9 a10
    rw [printOrder_spec _ (by simp)]
    rfl

/-- C6 amended witness: two arguments are printed in source order. -/
theorem c6_amended_witness :
    ([NULL, TRUE] : List AllObjects).length ≤ 10
    ∧ printOrder [NULL, TRUE] = [NULL, TRUE] :=
  ⟨by decide, c6_amended.1 [NULL, TRUE] (by decide)⟩

theorem pairsInsert_mem :
    ∀ (pairs : List (AllExpressions × AllExpressions)) (key value : AllExpressions)
      (kv : AllExpressions × AllExpressions),
      kv ∈ pairsInsert pairs key value → (∃ v, (kv.1, v) ∈ pairs) ∨ kv.1 = key := by
  intro pairs key value
  induction pairs with
  | nil =>
      intro kv h
      simp [pairsInsert] at h
      right; rw [h]
  | cons hd rest ih =>
      obtain ⟨k, v⟩ := hd
      intro kv h
      simp only [pairsInsert] at h
      by_cases hk : beqExpr k key = true
      · rw [if_pos hk] at h
        rcases List.mem_cons.mp h with h | h
        · left; exact ⟨v, by rw [h]; exact List.mem_cons_self _ _⟩
        · left
          exact ⟨kv.2, List.mem_cons_of_mem _ (by simpa using h)⟩
      · rw [if_neg hk] at h
        rcases List.mem_cons.mp h with h | h
        · left; exact ⟨v, by rw [h]; exact List.mem_cons_self _ _⟩
        · rcases ih kv h with ⟨v1, hv1⟩ | h1
          · exact Or.inl ⟨v1, List.mem_cons_of_mem _ hv1⟩
          · exact Or.inr h1

theorem pairsInsert_distinct :
    ∀ (pairs : List (AllExpressions × AllExpressions)) (key value : AllExpressions),
      List.Pairwise (fun a b => beqExpr a.1 b.1 = false) pairs →
      List.Pairwise (fun a b => beqExpr a.1 b.1 = false) (pairsInsert pairs key value) := by
  intro pairs key value
  induction pairs with
  | nil => intro _; simp [pairsInsert]
  | cons hd rest ih =>
      obtain ⟨k, v⟩ := hd
      intro h
      have hrest := (List.pairwise_cons.mp h).2
      have hhd := (List.pairwise_cons.mp h).1
      simp only [pairsInsert]
      by_cases hk : beqExpr k key = true
      · rw [if_pos hk]
        exact List.pairwise_cons.mpr ⟨fun kv hkv => hhd kv hkv, hrest⟩
      · rw [if_neg hk]
        refine List.pairwise_cons.mpr ⟨?_, ih hrest⟩
        intro kv hkv
        rcases pairsInsert_mem rest key value kv hkv with ⟨v1, hv1⟩ | h1
        · exact hhd (kv.1, v1) hv1
        · rw [h1]; exact eq_false_of_ne_true hk

theorem parse_hash_literal_loop_distinct (pe : ParseExprFn) :
    ∀ (fuel : Nat) (pairs : List (AllExpressions × AllExpressions)) (p : Parser)
      (outPairs : List (AllExpressions × AllExpressions)) (p1 : Parser),
      List.Pairwise (fun a b => beqExpr a.1 b.1 = false) pairs →
      parse_hash_literal_loop pe fuel pairs p = (some outPairs, p1) →
      List.Pairwise (fun a b => beqExpr a.1 b.1 = false) outPairs := by
  intro fuel
  induction fuel with
  | zero =>
      intro pairs p outPairs p1 hdist h
      simp only [parse_hash_literal_loop] at h
      obtain ⟨h1, _⟩ := Prod.mk.injEq .. ▸ h
      cases h
      exact hdist
  | succ n ih =>
      intro pairs p outPairs p1 hdist h
      simp only [parse_hash_literal_loop] at h
      split at h
      · split at h
        · simp at h
        · split at h
          · simp at h
          · split at h
            · simp at h
            · split at h
              · split at h
                · simp at h
                · exact ih _ _ _ _ (pairsInsert_distinct _ _ _ hdist) h
              · exact ih _ _ _ _ (pairsInsert_distinct _ _ _ hdist) h
      · cases h
        exact hdist

theorem perm_two {α : Type} (a b : α) :
    ∀ l : List α, l.Perm [a, b] → l = [a, b] ∨ l = [b, a] := by
  intro l h
  obtain ⟨x, y, rfl⟩ := List.length_eq_two.mp h.length_eq
  have hx : x ∈ [a, b] := h.subset (by simp)
  rcases List.mem_cons.mp hx with hxa | hxb
  · subst hxa
    left
    have hy : [y] = [b] := List.perm_singleton.mp h.cons_inv
    injection hy with hy _
    rw [hy]
  · have hxb1 : x = b := by simpa using hxb
    subst hxb1
    right
    have hba : List.Perm [x, y] [x, a] := h.trans (List.Perm.swap x a [])
    have hy : [y] = [a] := List.perm_singleton.mp hba.cons_inv
    injection hy with hy _
    rw [hy]

/-- C4 counterexample: the claim says the parsed AST preserves the source
order of the hash literal's key-value pairs; parsing \x7b1: 2, 1: 3\x7d
(two pairs in the source) yields a HashLiteral holding the SINGLE pair
(1, 3) with no parse error, because parse_hash_literal accumulates the
pairs in a map keyed by the key expression. -/
theorem c4_counterexample :
    (parse_input 20 "\x7b1: 2, 1: 3\x7d").1.statements
      = [AllStatements.Expression (new_token TokenType.Lbrace "\x7b")
          (some (hashLit [(intLit 1, intLit 3)]))]
  ∧ (parse_input 20 "\x7b1: 2, 1: 3\x7d").2.errors = [] := by
  exact ⟨rfl, rfl⟩

/-- C4 amended: parse_hash_literal collapses duplicate key expressions at
parse time, so every parsed hash literal has pairwise-distinct key
expressions; \x7b1: 2, 2 - 1: 3\x7d parses with no errors into one
statement holding both pairs (the AST map is unordered, so the pair list
is pinned only up to permutation); and for EVERY iteration order of those
two pairs, eval_hash_map inserts by value equality into a fresh map,
leaving a single entry keyed Integer 1 whose value is the later-visited
pair's — Integer 2 or Integer 3, which one being left unspecified by the
source's HashMap iteration order. -/
theorem c4_amended :
    (∀ (pe : ParseExprFn) (loopFuel : Nat) (p : Parser) (tok : Token)
        (pairs : List (AllExpressions × AllExpressions)) (p1 : Parser),
        parse_hash_literal pe loopFuel p = (some (AllExpressions.HashLiteral tok pairs), p1) →
        List.Pairwise (fun a b => beqExpr a.1 b.1 = false) pairs)
  ∧ (∃ ps : List (AllExpressions × AllExpressions), ps.Perm c4TwoPairs
      ∧ (parse_input 20 "\x7b1: 2, 2 - 1: 3\x7d").1.statements
          = [AllStatements.Expression (new_token TokenType.Lbrace "\x7b")
              (some (hashLit ps))]
      ∧ (parse_input 20 "\x7b1: 2, 2 - 1: 3\x7d").2.errors = [])
  ∧ (∀ ps : List (AllExpressions × AllExpressions), ps.Perm c4TwoPairs →
      ∃ v : AllObjects, (v = AllObjects.Integer 2 ∨ v = AllObjects.Integer 3)
        ∧ (eval_hash_map (evalF 20) 20 ps 0 initialState).map
              (fun r => (r.1, r.2.hashes))
            = some (some (AllObjects.HashMap 0), [[(AllObjects.Integer 1, v)]])) := by
  refine ⟨?_, ⟨c4TwoPairs, List.Perm.refl _, rfl, rfl⟩, ?_⟩
  · intro pe loopFuel p tok pairs p1 h
    unfold parse_hash_literal at h
    split at h
    · simp at h
    · split at h
      · simp at h
      · simp only [Prod.mk.injEq, Option.some.injEq] at h
        obtain ⟨h1, _⟩ := h
        cases h1
        exact parse_hash_literal_loop_distinct pe loopFuel [] p _ _ (by simp) (by assumption)
  · intro ps hperm
    rcases perm_two (intLit 1, intLit 2)
        (AllExpressions.InfixExpression (new_token TokenType.Minus "-")
          (some (intLit 2)) "-" (some (intLit 1)), intLit 3) ps hperm with rfl | rfl
    · exact ⟨AllObjects.Integer 3, Or.inr rfl, rfl⟩
    · exact ⟨AllObjects.Integer 2, Or.inl rfl, rfl⟩

/-- C4 witness: the parsed single pair of \x7b1: 2, 1: 3\x7d has distinct
keys, and one concrete iteration order of the two colliding pairs yields a
single map entry keyed Integer 1. -/
theorem c4_amended_witness :
    List.Pairwise
      (fun (a b : AllExpressions × AllExpressions) => beqExpr a.1 b.1 = false)
      [(intLit 1, intLit 3)]
  ∧ ∃ v : AllObjects, (v = AllObjects.Integer 2 ∨ v = AllObjects.Integer 3)
      ∧ (eval_hash_map (evalF 20) 20 c4TwoPairs 0 initialState).map
            (fun r => (r.1, r.2.hashes))
          = some (some (AllObjects.HashMap 0), [[(AllObjects.Integer 1, v)]]) :=
  ⟨c4_amended.1 (parse_expression 20) 20
    (Parser.new (Lexer.new ("\x7b1: 2, 1: 3\x7d").data))
    (new_token TokenType.Lbrace "\x7b") [(intLit 1, intLit 3)]
    (parse_hash_literal (parse_expression 20) 20
      (Parser.new (Lexer.new ("\x7b1: 2, 1: 3\x7d").data))).2
    (by rfl),
   c4_amended.2.2 c4TwoPairs (List.Perm.refl c4TwoPairs)⟩
